import Mathlib

/-!
Verification of the factorio-file-parser binary codec (src/schema.rs,
src/error.rs) against its specification.

Shallow embedding conventions:
* A Rust `u8` byte is a `Nat`; byte buffers (`&[u8]` / `Vec<u8>`) are
  `List Nat` whose members are below 256 (stated as a hypothesis where it
  matters, since Rust's types guarantee it).
* `f64` values are carried as their 8-byte little-endian bit pattern
  (a `Nat` below 2^64): the code never does floating-point arithmetic,
  it only moves the 8 bytes (`f64::from_le_bytes` / `to_le_bytes`).
* Rust `String` values are carried as their UTF-8 byte sequences
  (`List Nat`), which is exactly what the codec reads and writes.
* Fallible Rust code returning `Result<T, Error>` is modelled with
  `PResult` / `Except Error`.  Rust code can also panic: slice range
  indexing `self.byte_slice[0..n]` panics when fewer than `n` bytes
  remain, before any `try_into` runs.  `PResult.panic` records that
  outcome explicitly.
-/

namespace FactorioFileParser

/-- The error enum of src/error.rs.  The `Utf8` variant's
`std::str::Utf8Error` payload (an error position) is dropped: no claim
inspects it. -/
inductive Error where
  | Message (msg : String)
  | ByteSlicingError
  | Eof
  | OutOfRange
  | Syntax (msg : String)
  | TrailingBytes
  | Utf8
deriving DecidableEq

/-- Outcome of running Rust code that returns `Result<α, Error>` but can
also panic at runtime (out-of-range slice indexing). -/
inductive PResult (α : Type) where
  | ok : α → PResult α
  | err : Error → PResult α
  | panic : PResult α
deriving DecidableEq

/-- Map over a successful outcome. -/
def PResult.map {α β : Type} (f : α → β) : PResult α → PResult β
  | .ok a => .ok (f a)
  | .err e => .err e
  | .panic => .panic

/-- Rust's `?` on a deserialiser step that produced a value and the
advanced cursor: continue on success, propagate an error or a panic. -/
def PResult.andThen2 {α β γ : Type} (x : PResult (α × β))
    (f : α → β → PResult γ) : PResult γ :=
  match x with
  | .ok (a, b) => f a b
  | .err e => .err e
  | .panic => .panic

theorem PResult.andThen2_ok_apply {α β γ : Type} (a : α) (b : β)
    (f : α → β → PResult γ) : (PResult.ok (a, b)).andThen2 f = f a b := rfl

theorem PResult.andThen2_ok {α β γ : Type} {x : PResult (α × β)}
    {f : α → β → PResult γ} {r : γ} (h : x.andThen2 f = .ok r) :
    ∃ a b, x = .ok (a, b) ∧ f a b = .ok r := by
  match x, h with
  | .ok (a, b), h => exact ⟨a, b, rfl, h⟩
  | .err e, h => exact absurd h (by simp [PResult.andThen2])
  | .panic, h => exact absurd h (by simp [PResult.andThen2])

/-- The `Deserialiser` of schema.rs holds `byte_slice: &[u8]` and every
method advances it; we model a deserialiser step as a state function from
the remaining byte list to an outcome paired with the new remaining list. -/
def DeserM (α : Type) : Type := List Nat → PResult (α × List Nat)

def DeserM.pure {α : Type} (a : α) : DeserM α := fun s => .ok (a, s)

def DeserM.bind {α β : Type} (m : DeserM α) (f : α → DeserM β) : DeserM β := fun s =>
  match m s with
  | .ok (a, s1) => f a s1
  | .err e => .err e
  | .panic => .panic

instance : Monad DeserM where
  pure := DeserM.pure
  bind := DeserM.bind

/-- `return Err(e)` inside a deserialiser method. -/
def DeserM.throw {α : Type} (e : Error) : DeserM α := fun _ => .err e

namespace Deserialiser

/-- `Deserialiser::peek_u8`: next byte without advancing; `Eof` at the end.
(The `Error::Message` branch wraps an `io::Read` failure, which cannot
happen when reading from an in-memory slice.) -/
def peek_u8 : DeserM Nat := fun s =>
  match s with
  | [] => .err .Eof
  | b :: rest => .ok (b, b :: rest)

/-- `Deserialiser::next_u8`: `peek_u8` then advance by one. -/
def next_u8 : DeserM Nat := fun s =>
  match s with
  | [] => .err .Eof
  | b :: rest => .ok (b, rest)

/-- `Deserialiser::next_u16`: `&self.byte_slice[0..2]` then
`u16::from_le_bytes`.  The range index panics when fewer than 2 bytes
remain, so the `map_err(|_| Error::ByteSlicingError)` branch is
unreachable: `try_into` to a 2-byte array always succeeds on the 2-byte
slice the index produced. -/
def next_u16 : DeserM Nat := fun s =>
  match s with
  | b0 :: b1 :: rest => .ok (b0 + 256 * b1, rest)
  | _ => .panic

/-- `Deserialiser::next_u16_optim`: one byte below 255 is the value,
a 255 byte is followed by the full u16. -/
def next_u16_optim : DeserM Nat := do
  let byte ← next_u8
  if byte != 0xFF then
    pure byte
  else
    next_u16

/-- `Deserialiser::next_u32`: `&self.byte_slice[0..4]` then
`u32::from_le_bytes`; the range index panics when fewer than 4 bytes
remain (the `ByteSlicingError` branch is unreachable, as in `next_u16`). -/
def next_u32 : DeserM Nat := fun s =>
  match s with
  | b0 :: b1 :: b2 :: b3 :: rest =>
      .ok (b0 + 256 * b1 + 256 ^ 2 * b2 + 256 ^ 3 * b3, rest)
  | _ => .panic

/-- `Deserialiser::next_u32_optim`: one preamble byte below 255 is the
value, a 255 byte is followed by the full u32. -/
def next_u32_optim : DeserM Nat := do
  let so_byte ← next_u8
  if so_byte != 0xFF then
    pure so_byte
  else
    next_u32

/-- `Deserialiser::parse_bool`: one byte, `Ok(b != 0)`. -/
def parse_bool : DeserM Bool := do
  let b ← next_u8
  pure (b != 0)

/-- `Deserialiser::parse_double`: `&self.byte_slice[0..8]` then
`f64::from_le_bytes`, kept as the 64-bit pattern; the range index panics
when fewer than 8 bytes remain. -/
def parse_double : DeserM Nat := fun s =>
  match s with
  | b0 :: b1 :: b2 :: b3 :: b4 :: b5 :: b6 :: b7 :: rest =>
      .ok (b0 + 256 * b1 + 256 ^ 2 * b2 + 256 ^ 3 * b3 + 256 ^ 4 * b4
            + 256 ^ 5 * b5 + 256 ^ 6 * b6 + 256 ^ 7 * b7, rest)
  | _ => .panic

end Deserialiser

/-- Whether `c` is a UTF-8 continuation byte (`0x80..=0xBF`). -/
def isUtf8Cont (c : Nat) : Bool := decide (0x80 ≤ c ∧ c ≤ 0xBF)

/-- `std::str::from_utf8` validity (RFC 3629): ASCII, 2/3/4-byte
sequences with the restricted ranges that exclude overlong forms,
surrogates and code points above U+10FFFF. -/
def validUtf8 : List Nat → Bool
  | [] => true
  | b :: rest =>
    if b ≤ 0x7F then validUtf8 rest
    else if 0xC2 ≤ b && b ≤ 0xDF then
      match rest with
      | c1 :: rest1 => isUtf8Cont c1 && validUtf8 rest1
      | [] => false
    else if b == 0xE0 then
      match rest with
      | c1 :: c2 :: rest2 =>
          decide (0xA0 ≤ c1 ∧ c1 ≤ 0xBF) && isUtf8Cont c2 && validUtf8 rest2
      | _ => false
    else if (0xE1 ≤ b && b ≤ 0xEC) || b == 0xEE || b == 0xEF then
      match rest with
      | c1 :: c2 :: rest2 => isUtf8Cont c1 && isUtf8Cont c2 && validUtf8 rest2
      | _ => false
    else if b == 0xED then
      match rest with
      | c1 :: c2 :: rest2 =>
          decide (0x80 ≤ c1 ∧ c1 ≤ 0x9F) && isUtf8Cont c2 && validUtf8 rest2
      | _ => false
    else if b == 0xF0 then
      match rest with
      | c1 :: c2 :: c3 :: rest3 =>
          decide (0x90 ≤ c1 ∧ c1 ≤ 0xBF) && isUtf8Cont c2 && isUtf8Cont c3
            && validUtf8 rest3
      | _ => false
    else if 0xF1 ≤ b && b ≤ 0xF3 then
      match rest with
      | c1 :: c2 :: c3 :: rest3 =>
          isUtf8Cont c1 && isUtf8Cont c2 && isUtf8Cont c3 && validUtf8 rest3
      | _ => false
    else if b == 0xF4 then
      match rest with
      | c1 :: c2 :: c3 :: rest3 =>
          decide (0x80 ≤ c1 ∧ c1 ≤ 0x8F) && isUtf8Cont c2 && isUtf8Cont c3
            && validUtf8 rest3
      | _ => false
    else false

namespace Deserialiser

/-- The string-body read inside `Deserialiser::_parse_string`:
`&self.byte_slice[0..len]` (panics when fewer than `len` bytes remain;
the `try_into` there is the infallible slice-to-slice conversion), then
`std::str::from_utf8` (its failure is `Error::Utf8`), then advance. -/
def take_string_body (len : Nat) : DeserM (List Nat) := fun s =>
  if len ≤ s.length then
    if validUtf8 (s.take len) then .ok (s.take len, s.drop len)
    else .err .Utf8
  else .panic

/-- `Deserialiser::_parse_string`.  With the empty indicator, a true
leading bool means the empty string; otherwise an optimised u32 length
then that many UTF-8 bytes.  (`has_empty_indicator && self.parse_bool()?`
short-circuits: the bool byte is only consumed when the indicator is in
use.) -/
def underscore_parse_string (has_empty_indicator : Bool) : DeserM (List Nat) := do
  let is_empty ← if has_empty_indicator then parse_bool else pure false
  if is_empty then
    pure []
  else do
    let len ← next_u32_optim
    take_string_body len

/-- `Deserialiser::parse_string` (property-tree convention). -/
def parse_string : DeserM (List Nat) := underscore_parse_string true

/-- `Deserialiser::parse_string_saveheader` (save-header convention). -/
def parse_string_saveheader : DeserM (List Nat) := underscore_parse_string false

end Deserialiser

/-- `Version` (schema.rs): four u16 components. -/
structure Version where
  main : Nat
  major : Nat
  minor : Nat
  developer : Nat
deriving DecidableEq

/-- `impl From<Version> for u64`: developer | minor << 16 | major << 32 |
main << 48; for u16 components the disjoint ors are sums. -/
def Version.toU64 (v : Version) : Nat :=
  v.developer + v.minor * 2 ^ 16 + v.major * 2 ^ 32 + v.main * 2 ^ 48

/-- `Version48` (schema.rs): three u16 components. -/
structure Version48 where
  main : Nat
  major : Nat
  minor : Nat
deriving DecidableEq

/-- `BuildNumber` (schema.rs). -/
inductive BuildNumber where
  | Build16 (v : Nat)
  | Build32 (v : Nat)
deriving DecidableEq

/-- `PropertyTree` (schema.rs).  `number` carries the f64 bit pattern,
`string` the UTF-8 bytes of the Rust `String`. -/
inductive PropertyTree where
  | none
  | bool (b : Bool)
  | number (bits : Nat)
  | string (s : List Nat)
  | list (items : List PropertyTree)
  | dictionary (entries : List (List Nat × PropertyTree))

/-- `PropertyTreeType` (schema.rs). -/
inductive PropertyTreeType where
  | none
  | bool
  | number
  | string
  | list
  | dictionary
deriving DecidableEq

/-- `impl TryFrom<u8> for PropertyTreeType`: 0..=5 select a variant, any
other byte is `OutOfRange`. -/
def PropertyTreeType.try_from (value : Nat) : Except Error PropertyTreeType :=
  match value with
  | 0 => .ok .none
  | 1 => .ok .bool
  | 2 => .ok .number
  | 3 => .ok .string
  | 4 => .ok .list
  | 5 => .ok .dictionary
  | _ => .error .OutOfRange

/-- `impl TryFrom<PropertyTreeType> for u8`: total on the six variants. -/
def PropertyTreeType.to_u8 (value : PropertyTreeType) : Except Error Nat :=
  match value with
  | .none => .ok 0
  | .bool => .ok 1
  | .number => .ok 2
  | .string => .ok 3
  | .list => .ok 4
  | .dictionary => .ok 5

namespace Deserialiser

/-- `Deserialiser::parse_version`: four u16 reads
(main, major, minor, developer). -/
def parse_version : DeserM Version := do
  let main ← next_u16
  let major ← next_u16
  let minor ← next_u16
  let developer ← next_u16
  pure { main := main, major := major, minor := minor, developer := developer }

/-- `Deserialiser::parse_version48`: three optimised u16 reads. -/
def parse_version48 : DeserM Version48 := do
  let main ← next_u16_optim
  let major ← next_u16_optim
  let minor ← next_u16_optim
  pure { main := main, major := major, minor := minor }

/-!
`Deserialiser::parse_property_tree` is recursive through the List and
Dictionary loops; termination is by input length in the source (each
nested parse consumes at least its two leading bytes).  The embedding
adds an explicit fuel argument, consumed one unit per nested call, so the
functions are structurally recursive and compute by `rfl`; fuel
exhaustion yields the (unreachable for sufficient fuel, see
`parse_property_tree_fuel_ge`) `.panic`.  `parse_property_tree` below
instantiates the fuel with more than the input length, which
`parse_property_tree_fuel_ge` proves is always enough.
-/

mutual

/-- `Deserialiser::parse_property_tree`: one type byte, one discarded
bool byte, then the variant payload selected by
`PropertyTreeType::try_from`. -/
def parse_property_tree_fuel : Nat → List Nat → PResult (PropertyTree × List Nat)
  | 0, _ => .panic
  | _fuel + 1, [] => .err .Eof
  | _fuel + 1, [_] => .err .Eof
  | fuel + 1, type_u8 :: _flag :: s2 =>
    match PropertyTreeType.try_from type_u8 with
    | .error e => .err e
    | .ok .none => .ok (.none, s2)
    | .ok .bool =>
      (parse_bool s2).andThen2 fun b s3 => .ok (.bool b, s3)
    | .ok .number =>
      (parse_double s2).andThen2 fun bits s3 => .ok (.number bits, s3)
    | .ok .string =>
      (parse_string s2).andThen2 fun str s3 => .ok (.string str, s3)
    | .ok .list =>
      (next_u32 s2).andThen2 fun len s3 =>
        (parse_pt_list_items fuel len s3).andThen2 fun items s4 =>
          .ok (.list items, s4)
    | .ok .dictionary =>
      (next_u32 s2).andThen2 fun len s3 =>
        (parse_pt_dict_items fuel len s3).andThen2 fun entries s4 =>
          .ok (.dictionary entries, s4)

/-- The List-variant loop of `parse_property_tree`: per element one
discarded property-tree string, then one subtree. -/
def parse_pt_list_items : Nat → Nat → List Nat → PResult (List PropertyTree × List Nat)
  | 0, _, _ => .panic
  | _fuel + 1, 0, s => .ok ([], s)
  | fuel + 1, n + 1, s =>
    (parse_string s).andThen2 fun _unused s1 =>
      (parse_property_tree_fuel fuel s1).andThen2 fun t s2 =>
        (parse_pt_list_items fuel n s2).andThen2 fun items s3 =>
          .ok (t :: items, s3)

/-- The Dictionary-variant loop of `parse_property_tree`: per entry one
property-tree string key, then one subtree value. -/
def parse_pt_dict_items : Nat → Nat → List Nat → PResult (List (List Nat × PropertyTree) × List Nat)
  | 0, _, _ => .panic
  | _fuel + 1, 0, s => .ok ([], s)
  | fuel + 1, n + 1, s =>
    (parse_string s).andThen2 fun key s1 =>
      (parse_property_tree_fuel fuel s1).andThen2 fun value s2 =>
        (parse_pt_dict_items fuel n s2).andThen2 fun entries s3 =>
          .ok ((key, value) :: entries, s3)

end

/-- `Deserialiser::parse_property_tree` as a deserialiser step: the fuel
`s.length + 1` always suffices (`parse_property_tree_fuel_ge`). -/
def parse_property_tree : DeserM PropertyTree := fun s =>
  parse_property_tree_fuel (s.length + 1) s

end Deserialiser

/-!
The `Serialiser` of schema.rs appends to `bytes: Vec<u8>`; each write
method is modelled as the byte list it appends, composed with `++` in the
order of the writes.  `as u8` / `as u32` casts at call sites become
`% 2 ^ 8` / `% 2 ^ 32`.
-/

namespace Serialiser

/-- `Serialiser::write_u8`. -/
def write_u8 (value : Nat) : List Nat := [value]

/-- `Serialiser::write_u16`: `u16::to_le_bytes` of a u16 value. -/
def write_u16 (value : Nat) : List Nat := [value % 256, value / 256 % 256]

/-- `Serialiser::write_u32`: `u32::to_le_bytes` of a u32 value. -/
def write_u32 (value : Nat) : List Nat :=
  [value % 256, value / 256 % 256, value / 256 ^ 2 % 256, value / 256 ^ 3 % 256]

/-- `Serialiser::write_bool`. -/
def write_bool (value : Bool) : List Nat := [if value then 1 else 0]

/-- `Serialiser::write_double`: `f64::to_le_bytes` of the 64-bit pattern. -/
def write_double (bits : Nat) : List Nat :=
  [bits % 256, bits / 256 % 256, bits / 256 ^ 2 % 256, bits / 256 ^ 3 % 256,
   bits / 256 ^ 4 % 256, bits / 256 ^ 5 % 256, bits / 256 ^ 6 % 256,
   bits / 256 ^ 7 % 256]

/-- `Serialiser::write_version`: the packed u64 split back into four u16
little-endian writes, high component first
(`(version >> 48) as u16`, ..., `version as u16`). -/
def write_version (version : Nat) : List Nat :=
  write_u16 (version / 2 ^ 48 % 2 ^ 16) ++ write_u16 (version / 2 ^ 32 % 2 ^ 16)
    ++ write_u16 (version / 2 ^ 16 % 2 ^ 16) ++ write_u16 (version % 2 ^ 16)

/-- `Serialiser::write_string` (property-tree convention): a true empty
flag alone for the empty string; otherwise a false flag, the
space-optimised length (`value.len() as u8` below 255, else the 255
sentinel and `value.len() as u32`), then the UTF-8 bytes. -/
def write_string (value : List Nat) : List Nat :=
  if value = [] then
    write_bool true
  else
    write_bool false
      ++ (if value.length < 255 then write_u8 (value.length % 2 ^ 8)
          else write_u8 255 ++ write_u32 (value.length % 2 ^ 32))
      ++ value

mutual

/-- `Serialiser::write_property_tree`: the type byte via
`PropertyTreeType::try_into`, the always-false internal flag, then the
variant payload. -/
def write_property_tree : PropertyTree → Except Error (List Nat)
  | .none => do
    let d ← PropertyTreeType.to_u8 .none
    pure (write_u8 d ++ write_bool false)
  | .bool b => do
    let d ← PropertyTreeType.to_u8 .bool
    pure (write_u8 d ++ write_bool false ++ write_bool b)
  | .number bits => do
    let d ← PropertyTreeType.to_u8 .number
    pure (write_u8 d ++ write_bool false ++ write_double bits)
  | .string s => do
    let d ← PropertyTreeType.to_u8 .string
    pure (write_u8 d ++ write_bool false ++ write_string s)
  | .list items => do
    let d ← PropertyTreeType.to_u8 .list
    let body ← write_pt_list_items items
    pure (write_u8 d ++ write_bool false ++ write_u32 (items.length % 2 ^ 32)
      ++ body)
  | .dictionary entries => do
    let d ← PropertyTreeType.to_u8 .dictionary
    let body ← write_pt_dict_items entries
    pure (write_u8 d ++ write_bool false ++ write_u32 (entries.length % 2 ^ 32)
      ++ body)

/-- The List-variant loop of `write_property_tree`: per element an empty
unused label then the subtree. -/
def write_pt_list_items : List PropertyTree → Except Error (List Nat)
  | [] => pure []
  | t :: ts => do
    let bs ← write_property_tree t
    let rest ← write_pt_list_items ts
    pure (write_string [] ++ bs ++ rest)

/-- The Dictionary-variant loop of `write_property_tree`: per entry the
key then the subtree. -/
def write_pt_dict_items : List (List Nat × PropertyTree) → Except Error (List Nat)
  | [] => pure []
  | (k, v) :: rest => do
    let bs ← write_property_tree v
    let bsrest ← write_pt_dict_items rest
    pure (write_string k ++ bs ++ bsrest)

end

end Serialiser

/-- The UTF-8 bytes of the key `"startup"`. -/
def startupKey : List Nat := [115, 116, 97, 114, 116, 117, 112]

/-- The UTF-8 bytes of the key `"runtime-global"`. -/
def runtimeGlobalKey : List Nat :=
  [114, 117, 110, 116, 105, 109, 101, 45, 103, 108, 111, 98, 97, 108]

/-- The UTF-8 bytes of the key `"runtime-per-user"`. -/
def runtimePerUserKey : List Nat :=
  [114, 117, 110, 116, 105, 109, 101, 45, 112, 101, 114, 45, 117, 115, 101, 114]

/-- Models `HashMap::from_iter` over the parsed pairs followed by
`HashMap::remove(key)` (schema.rs lines 41-65): building the map inserts
the pairs in order and a later pair with the same key overwrites an
earlier one, so `remove` returns the value of the last pair whose key
equals `key` (`None` when the key never occurs).  The three keys removed
by `ModSettings::try_from` are pairwise distinct, so the earlier removes
do not change what the later ones return. -/
def hashMapRemove (dict : List (List Nat × PropertyTree)) (key : List Nat) :
    Option PropertyTree :=
  (dict.reverse.find? (fun p => decide (p.1 = key))).map Prod.snd

/-- `ModSettings` (schema.rs). -/
structure ModSettings where
  version : Version
  startup : PropertyTree
  runtime_global : PropertyTree
  runtime_per_user : PropertyTree

/-- The section extraction of `ModSettings::try_from` (schema.rs lines
41-65): remove `startup`, `runtime-global` and `runtime-per-user` from
the `HashMap` built over the parsed dictionary, in that order; the first
missing one is a `Syntax` error naming it, and any leftover entries are
dropped (ignored). -/
def ModSettings.extract_sections (dict : List (List Nat × PropertyTree)) :
    Except Error (PropertyTree × PropertyTree × PropertyTree) :=
  match hashMapRemove dict startupKey with
  | Option.none => .error (.Syntax "Settings section 'startup' missing")
  | Option.some startup =>
    match hashMapRemove dict runtimeGlobalKey with
    | Option.none => .error (.Syntax "Settings section 'runtime-global' missing")
    | Option.some runtime_global =>
      match hashMapRemove dict runtimePerUserKey with
      | Option.none => .error (.Syntax "Settings section 'runtime-per-user' missing")
      | Option.some runtime_per_user =>
        .ok (startup, runtime_global, runtime_per_user)

/-- `impl TryFrom<&[u8]> for ModSettings`: version, mandatory false
sentinel, top-level Dictionary with the three sections (extracted through
a `HashMap`, leftovers ignored), then an exact-EOF check via `peek_u8`. -/
def ModSettings.try_from (input : List Nat) : PResult ModSettings :=
  PResult.map Prod.fst <| (do
    let version ← Deserialiser.parse_version
    let false_sentinel ← Deserialiser.parse_bool
    if false_sentinel then
      DeserM.throw (.Syntax "After-version sentinel expected to be false, got true")
    else do
      let top ← Deserialiser.parse_property_tree
      match top with
      | .dictionary dict =>
        (match ModSettings.extract_sections dict with
         | .error e => DeserM.throw e
         | .ok (startup, runtime_global, runtime_per_user) =>
           -- Should be at EOF now
           fun s =>
             match Deserialiser.peek_u8 s with
             | .err .Eof =>
               .ok ({ version := version, startup := startup,
                      runtime_global := runtime_global,
                      runtime_per_user := runtime_per_user }, s)
             | _ => .err .TrailingBytes)
      | _ => DeserM.throw (.Syntax "Top-level PropertyTree not dictionary type")
    : DeserM ModSettings)
    input

/-- `impl TryInto<Vec<u8>> for ModSettings`: the packed version, a false
byte, then the synthetic top-level Dictionary with the three sections in
fixed order. -/
def ModSettings.try_into (ms : ModSettings) : Except Error (List Nat) := do
  let tree ← Serialiser.write_property_tree (.dictionary
    [(startupKey, ms.startup), (runtimeGlobalKey, ms.runtime_global),
     (runtimePerUserKey, ms.runtime_per_user)])
  pure (Serialiser.write_version ms.version.toU64 ++ Serialiser.write_bool false
    ++ tree)

/-- `SaveHeaderMod` (schema.rs). -/
structure SaveHeaderMod where
  name : List Nat
  version : Version48
  crc : Nat
deriving DecidableEq

/-- `SaveHeader` (schema.rs); strings carried as UTF-8 bytes. -/
structure SaveHeader where
  factorio_version : Version
  campaign : List Nat
  name : List Nat
  base_mod : List Nat
  difficulty : Nat
  finished : Bool
  player_won : Bool
  next_level : List Nat
  can_continue : Bool
  finished_but_continuing : Bool
  saving_replay : Bool
  allow_non_admin_debug_options : Bool
  loaded_from : Version48
  loaded_from_build : BuildNumber
  allowed_commands : Bool
  mods : List SaveHeaderMod
deriving DecidableEq

namespace Deserialiser

/-- The mod loop of `SaveHeader::try_from`: `num_mods` records of
(save-header string, Version48, u32 crc), pushed in order. -/
def parse_save_header_mods : Nat → DeserM (List SaveHeaderMod)
  | 0 => pure []
  | n + 1 => do
    let name ← parse_string_saveheader
    let version ← parse_version48
    let crc ← next_u32
    let rest ← parse_save_header_mods n
    pure ({ name := name, version := version, crc := crc } :: rest)

end Deserialiser

/-- `impl TryFrom<&[u8]> for SaveHeader` (no trailing-bytes check): the
build number is 32-bit when `factorio_version.main >= 2` and 16-bit
otherwise, and for `main >= 2` four unknown bytes after
`allowed_commands` are consumed and discarded. -/
def SaveHeader.try_from (input : List Nat) : PResult SaveHeader :=
  PResult.map Prod.fst <| (do
    let factorio_version ← Deserialiser.parse_version
    let _ ← Deserialiser.parse_bool
    let campaign ← Deserialiser.parse_string_saveheader
    let name ← Deserialiser.parse_string_saveheader
    let base_mod ← Deserialiser.parse_string_saveheader
    let difficulty ← Deserialiser.next_u8
    let finished ← Deserialiser.parse_bool
    let player_won ← Deserialiser.parse_bool
    let next_level ← Deserialiser.parse_string_saveheader
    let can_continue ← Deserialiser.parse_bool
    let finished_but_continuing ← Deserialiser.parse_bool
    let saving_replay ← Deserialiser.parse_bool
    let allow_non_admin_debug_options ← Deserialiser.parse_bool
    let loaded_from ← Deserialiser.parse_version48
    let loaded_from_build ←
      (if 2 ≤ factorio_version.main then
        Deserialiser.next_u32 >>= fun v => pure (BuildNumber.Build32 v)
      else
        Deserialiser.next_u16 >>= fun v => pure (BuildNumber.Build16 v))
    let allowed_commands ← Deserialiser.parse_bool
    -- for _ in 0..4 { d.next_u8()?; } when factorio_version.main >= 2
    let _ ←
      (if 2 ≤ factorio_version.main then
        Deserialiser.next_u8 >>= fun _ => Deserialiser.next_u8 >>= fun _ =>
          Deserialiser.next_u8 >>= fun _ => Deserialiser.next_u8 >>= fun _ =>
            (pure () : DeserM Unit)
      else pure ())
    let num_mods ← Deserialiser.next_u32_optim
    let mods ← Deserialiser.parse_save_header_mods num_mods
    pure { factorio_version := factorio_version, campaign := campaign,
           name := name, base_mod := base_mod, difficulty := difficulty,
           finished := finished, player_won := player_won,
           next_level := next_level, can_continue := can_continue,
           finished_but_continuing := finished_but_continuing,
           saving_replay := saving_replay,
           allow_non_admin_debug_options := allow_non_admin_debug_options,
           loaded_from := loaded_from, loaded_from_build := loaded_from_build,
           allowed_commands := allowed_commands, mods := mods }
    : DeserM SaveHeader)
    input

/-!  ## Well-formedness

The invariants Rust's types guarantee for the in-memory values: `String`
holds valid UTF-8 with `u8` content, `u16`/`u32`/`f64` fit their widths.
The size bounds below 2^32 record the code's own stated assumption
("assuming usize fits into u32") for the lengths it writes with `as u32`.
-/

/-- A byte buffer: every member fits in a `u8`. -/
def bytesWF (s : List Nat) : Prop := ∀ b ∈ s, b < 256

/-- A Rust `String` as carried by the codec. -/
def wfStr (s : List Nat) : Prop :=
  (∀ b ∈ s, b < 256) ∧ validUtf8 s = true ∧ s.length < 2 ^ 32

/-- The four u16 components of a `Version`. -/
def Version.wf (v : Version) : Prop :=
  v.main < 2 ^ 16 ∧ v.major < 2 ^ 16 ∧ v.minor < 2 ^ 16 ∧ v.developer < 2 ^ 16

mutual

/-- The Rust-type invariants of a `PropertyTree` value. -/
def PropertyTree.wf : PropertyTree → Prop
  | .none => True
  | .bool _ => True
  | .number bits => bits < 2 ^ 64
  | .string s => wfStr s
  | .list items => items.length < 2 ^ 32 ∧ PropertyTree.wfList items
  | .dictionary entries => entries.length < 2 ^ 32 ∧ PropertyTree.wfDict entries

def PropertyTree.wfList : List PropertyTree → Prop
  | [] => True
  | t :: ts => PropertyTree.wf t ∧ PropertyTree.wfList ts

def PropertyTree.wfDict : List (List Nat × PropertyTree) → Prop
  | [] => True
  | (k, v) :: rest => wfStr k ∧ PropertyTree.wf v ∧ PropertyTree.wfDict rest

end

/-!  ## Unfolding and characterisation lemmas for the deserialiser -/

theorem DeserM.bind_apply {α β : Type} (m : DeserM α) (f : α → DeserM β)
    (s : List Nat) :
    (m >>= f) s =
      match m s with
      | .ok (a, s1) => f a s1
      | .err e => .err e
      | .panic => .panic := rfl

theorem DeserM.pure_apply {α : Type} (a : α) (s : List Nat) :
    (pure a : DeserM α) s = .ok (a, s) := rfl

theorem DeserM.pure_ok {α : Type} {a v : α} {s s1 : List Nat}
    (h : (pure a : DeserM α) s = .ok (v, s1)) : a = v ∧ s = s1 := by
  have h2 : PResult.ok (a, s) = PResult.ok (v, s1) := h
  simpa using h2

theorem DeserM.bind_ok {α β : Type} {m : DeserM α} {f : α → DeserM β}
    {s : List Nat} {r : β × List Nat} (h : (m >>= f) s = .ok r) :
    ∃ a s1, m s = .ok (a, s1) ∧ f a s1 = .ok r := by
  rw [DeserM.bind_apply] at h
  match hm : m s with
  | .ok (a, s1) => rw [hm] at h; exact ⟨a, s1, rfl, h⟩
  | .err e => rw [hm] at h; exact absurd h (by simp)
  | .panic => rw [hm] at h; exact absurd h (by simp)

namespace Deserialiser

theorem peek_u8_nil : peek_u8 [] = .err .Eof := rfl

theorem peek_u8_cons (b : Nat) (rest : List Nat) :
    peek_u8 (b :: rest) = .ok (b, b :: rest) := rfl

theorem next_u8_cons (b : Nat) (rest : List Nat) :
    next_u8 (b :: rest) = .ok (b, rest) := rfl

theorem next_u8_ok {s : List Nat} {b : Nat} {s1 : List Nat}
    (h : next_u8 s = .ok (b, s1)) : s = b :: s1 := by
  match s with
  | [] => exact absurd h (by simp [next_u8])
  | x :: rest =>
    simp only [next_u8] at h
    obtain ⟨rfl, rfl⟩ := by simpa using h
    rfl

theorem next_u16_cons (b0 b1 : Nat) (rest : List Nat) :
    next_u16 (b0 :: b1 :: rest) = .ok (b0 + 256 * b1, rest) := rfl

theorem next_u16_ok {s : List Nat} {v : Nat} {s1 : List Nat}
    (h : next_u16 s = .ok (v, s1)) :
    ∃ b0 b1, s = b0 :: b1 :: s1 ∧ v = b0 + 256 * b1 := by
  match s with
  | [] => exact absurd h (by simp [next_u16])
  | [_] => exact absurd h (by simp [next_u16])
  | b0 :: b1 :: rest =>
    rw [next_u16_cons] at h
    obtain ⟨rfl, rfl⟩ : b0 + 256 * b1 = v ∧ rest = s1 := by simpa using h
    exact ⟨b0, b1, rfl, rfl⟩

theorem next_u32_cons (b0 b1 b2 b3 : Nat) (rest : List Nat) :
    next_u32 (b0 :: b1 :: b2 :: b3 :: rest) =
      .ok (b0 + 256 * b1 + 256 ^ 2 * b2 + 256 ^ 3 * b3, rest) := rfl

theorem next_u32_ok {s : List Nat} {v : Nat} {s1 : List Nat}
    (h : next_u32 s = .ok (v, s1)) :
    ∃ b0 b1 b2 b3, s = b0 :: b1 :: b2 :: b3 :: s1
      ∧ v = b0 + 256 * b1 + 256 ^ 2 * b2 + 256 ^ 3 * b3 := by
  match s with
  | [] => exact absurd h (by simp [next_u32])
  | [_] => exact absurd h (by simp [next_u32])
  | [_, _] => exact absurd h (by simp [next_u32])
  | [_, _, _] => exact absurd h (by simp [next_u32])
  | b0 :: b1 :: b2 :: b3 :: rest =>
    rw [next_u32_cons] at h
    obtain ⟨rfl, rfl⟩ : b0 + 256 * b1 + 256 ^ 2 * b2 + 256 ^ 3 * b3 = v
        ∧ rest = s1 := by simpa using h
    exact ⟨b0, b1, b2, b3, rfl, rfl⟩

theorem parse_bool_cons (b : Nat) (rest : List Nat) :
    parse_bool (b :: rest) = .ok (b != 0, rest) := rfl

theorem parse_bool_ok {s : List Nat} {v : Bool} {s1 : List Nat}
    (h : parse_bool s = .ok (v, s1)) : ∃ b, s = b :: s1 ∧ v = (b != 0) := by
  obtain ⟨b, s2, hb, hrest⟩ := DeserM.bind_ok h
  obtain rfl := next_u8_ok hb
  obtain ⟨rfl, rfl⟩ := DeserM.pure_ok hrest
  exact ⟨b, rfl, rfl⟩

theorem parse_version_cons (b0 b1 b2 b3 b4 b5 b6 b7 : Nat) (rest : List Nat) :
    parse_version (b0 :: b1 :: b2 :: b3 :: b4 :: b5 :: b6 :: b7 :: rest) =
      .ok (({ main := b0 + 256 * b1, major := b2 + 256 * b3,
              minor := b4 + 256 * b5, developer := b6 + 256 * b7 } : Version),
           rest) := rfl

theorem parse_version_ok {s : List Nat} {v : Version} {s1 : List Nat}
    (h : parse_version s = .ok (v, s1)) :
    ∃ b0 b1 b2 b3 b4 b5 b6 b7, s = b0 :: b1 :: b2 :: b3 :: b4 :: b5 :: b6 :: b7 :: s1
      ∧ v = { main := b0 + 256 * b1, major := b2 + 256 * b3,
              minor := b4 + 256 * b5, developer := b6 + 256 * b7 } := by
  obtain ⟨m, sa, hm, h⟩ := DeserM.bind_ok h
  obtain ⟨ma, sb, hma, h⟩ := DeserM.bind_ok h
  obtain ⟨mi, sc, hmi, h⟩ := DeserM.bind_ok h
  obtain ⟨d, sd, hd, h⟩ := DeserM.bind_ok h
  obtain ⟨b0, b1, rfl, rfl⟩ := next_u16_ok hm
  obtain ⟨b2, b3, rfl, rfl⟩ := next_u16_ok hma
  obtain ⟨b4, b5, rfl, rfl⟩ := next_u16_ok hmi
  obtain ⟨b6, b7, rfl, rfl⟩ := next_u16_ok hd
  obtain ⟨rfl, rfl⟩ := DeserM.pure_ok h
  exact ⟨b0, b1, b2, b3, b4, b5, b6, b7, rfl, rfl⟩

end Deserialiser

/-!  ## Write-then-parse round trips for the primitives -/

theorem next_u16_write (v : Nat) (rest : List Nat) (h : v < 2 ^ 16) :
    Deserialiser.next_u16 (Serialiser.write_u16 v ++ rest) = .ok (v, rest) := by
  have h2 : v % 256 + 256 * (v / 256 % 256) = v := by omega
  simp only [Serialiser.write_u16, List.cons_append, List.nil_append,
    Deserialiser.next_u16_cons, h2]

theorem next_u32_write (v : Nat) (rest : List Nat) (h : v < 2 ^ 32) :
    Deserialiser.next_u32 (Serialiser.write_u32 v ++ rest) = .ok (v, rest) := by
  have h2 : v % 256 + 256 * (v / 256 % 256) + 256 ^ 2 * (v / 256 ^ 2 % 256)
      + 256 ^ 3 * (v / 256 ^ 3 % 256) = v := by omega
  simp only [Serialiser.write_u32, List.cons_append, List.nil_append,
    Deserialiser.next_u32_cons, h2]

theorem parse_double_write (bits : Nat) (rest : List Nat) (h : bits < 2 ^ 64) :
    Deserialiser.parse_double (Serialiser.write_double bits ++ rest) =
      .ok (bits, rest) := by
  have h2 : bits % 256 + 256 * (bits / 256 % 256) + 256 ^ 2 * (bits / 256 ^ 2 % 256)
      + 256 ^ 3 * (bits / 256 ^ 3 % 256) + 256 ^ 4 * (bits / 256 ^ 4 % 256)
      + 256 ^ 5 * (bits / 256 ^ 5 % 256) + 256 ^ 6 * (bits / 256 ^ 6 % 256)
      + 256 ^ 7 * (bits / 256 ^ 7 % 256) = bits := by omega
  simp only [Serialiser.write_double, List.cons_append, List.nil_append]
  simp only [Deserialiser.parse_double, h2]

theorem parse_bool_write (b : Bool) (rest : List Nat) :
    Deserialiser.parse_bool (Serialiser.write_bool b ++ rest) = .ok (b, rest) := by
  cases b <;> rfl

theorem next_u32_optim_small (b : Nat) (rest : List Nat) (h : b < 255) :
    Deserialiser.next_u32_optim (b :: rest) = .ok (b, rest) := by
  have hne : (b != 0xFF) = true := by simp only [bne_iff_ne, ne_eq]; omega
  show (Deserialiser.next_u8 >>= fun so_byte =>
    if so_byte != 0xFF then pure so_byte else Deserialiser.next_u32) (b :: rest)
      = .ok (b, rest)
  rw [DeserM.bind_apply, Deserialiser.next_u8_cons]
  show (if b != 0xFF then pure b else Deserialiser.next_u32) rest = .ok (b, rest)
  rw [hne]
  rfl

theorem next_u32_optim_large (rest : List Nat) :
    Deserialiser.next_u32_optim (255 :: rest) = Deserialiser.next_u32 rest := rfl

theorem take_string_body_exact (s rest : List Nat) (hutf8 : validUtf8 s = true) :
    Deserialiser.take_string_body s.length (s ++ rest) = .ok (s, rest) := by
  simp only [Deserialiser.take_string_body, List.length_append,
    Nat.le_add_right, if_pos, List.take_left, List.drop_left, hutf8, if_true]

theorem parse_string_empty_flag (rest : List Nat) :
    Deserialiser.parse_string (1 :: rest) = .ok ([], rest) := rfl

theorem parse_string_zero (rest : List Nat) :
    Deserialiser.parse_string (0 :: rest) =
      (Deserialiser.next_u32_optim >>= fun len =>
        Deserialiser.take_string_body len) rest := rfl

theorem write_string_length_pos (s : List Nat) :
    1 ≤ (Serialiser.write_string s).length := by
  by_cases h : s = []
  · simp [Serialiser.write_string, h, Serialiser.write_bool]
  · simp only [Serialiser.write_string, if_neg h]
    by_cases h2 : s.length < 255 <;>
      simp [h2, Serialiser.write_bool, Serialiser.write_u8, Serialiser.write_u32]

theorem parse_string_write (s : List Nat) (rest : List Nat) (h : wfStr s) :
    Deserialiser.parse_string (Serialiser.write_string s ++ rest) =
      .ok (s, rest) := by
  obtain ⟨_hbytes, hutf8, hlen⟩ := h
  by_cases hnil : s = []
  · subst hnil; rfl
  · simp only [Serialiser.write_string, if_neg hnil]
    by_cases hsmall : s.length < 255
    · -- single length byte
      simp only [if_pos hsmall]
      have hmod : s.length % 2 ^ 8 = s.length := Nat.mod_eq_of_lt (by omega)
      show Deserialiser.parse_string
        (0 :: (Serialiser.write_u8 (s.length % 2 ^ 8) ++ s ++ rest)) = .ok (s, rest)
      rw [hmod]
      show Deserialiser.parse_string (0 :: (s.length :: (s ++ rest))) = .ok (s, rest)
      rw [parse_string_zero, DeserM.bind_apply,
        next_u32_optim_small _ _ hsmall]
      exact take_string_body_exact s rest hutf8
    · -- sentinel 255 plus u32 length
      simp only [if_neg hsmall]
      have hmod : s.length % 2 ^ 32 = s.length := Nat.mod_eq_of_lt hlen
      rw [hmod]
      show Deserialiser.parse_string
        (0 :: (255 :: (Serialiser.write_u32 s.length ++ (s ++ rest)))) = .ok (s, rest)
      rw [parse_string_zero, DeserM.bind_apply, next_u32_optim_large,
        next_u32_write _ _ hlen]
      exact take_string_body_exact s rest hutf8

theorem parse_version_write (v : Version) (rest : List Nat) (h : v.wf) :
    Deserialiser.parse_version (Serialiser.write_version v.toU64 ++ rest) =
      .ok (v, rest) := by
  obtain ⟨h1, h2, h3, h4⟩ := h
  have e1 : v.toU64 / 2 ^ 48 % 2 ^ 16 = v.main := by
    simp only [Version.toU64]; omega
  have e2 : v.toU64 / 2 ^ 32 % 2 ^ 16 = v.major := by
    simp only [Version.toU64]; omega
  have e3 : v.toU64 / 2 ^ 16 % 2 ^ 16 = v.minor := by
    simp only [Version.toU64]; omega
  have e4 : v.toU64 % 2 ^ 16 = v.developer := by
    simp only [Version.toU64]; omega
  simp only [Serialiser.write_version, Serialiser.write_u16, e1, e2, e3, e4,
    List.cons_append, List.nil_append, Deserialiser.parse_version_cons]
  have r1 : v.main % 256 + 256 * (v.main / 256 % 256) = v.main := by omega
  have r2 : v.major % 256 + 256 * (v.major / 256 % 256) = v.major := by omega
  have r3 : v.minor % 256 + 256 * (v.minor / 256 % 256) = v.minor := by omega
  have r4 : v.developer % 256 + 256 * (v.developer / 256 % 256) = v.developer := by
    omega
  simp only [r1, r2, r3, r4]

/-!  ## Equations for the tree encoder -/

namespace Serialiser

theorem write_pt_none : write_property_tree .none = .ok [0, 0] := rfl

theorem write_pt_bool (b : Bool) :
    write_property_tree (.bool b) = .ok ([1, 0] ++ write_bool b) := rfl

theorem write_pt_number (bits : Nat) :
    write_property_tree (.number bits) = .ok ([2, 0] ++ write_double bits) := rfl

theorem write_pt_string (s : List Nat) :
    write_property_tree (.string s) = .ok ([3, 0] ++ write_string s) := rfl

theorem write_pt_list_eq (items : List PropertyTree) (body : List Nat)
    (h : write_pt_list_items items = .ok body) :
    write_property_tree (.list items) =
      .ok ([4, 0] ++ write_u32 (items.length % 2 ^ 32) ++ body) := by
  rw [show write_property_tree (.list items)
    = (write_pt_list_items items >>= fun body =>
        pure ([4, 0] ++ write_u32 (items.length % 2 ^ 32) ++ body)) from rfl, h]
  rfl

theorem write_pt_dict_eq (entries : List (List Nat × PropertyTree)) (body : List Nat)
    (h : write_pt_dict_items entries = .ok body) :
    write_property_tree (.dictionary entries) =
      .ok ([5, 0] ++ write_u32 (entries.length % 2 ^ 32) ++ body) := by
  rw [show write_property_tree (.dictionary entries)
    = (write_pt_dict_items entries >>= fun body =>
        pure ([5, 0] ++ write_u32 (entries.length % 2 ^ 32) ++ body)) from rfl, h]
  rfl

theorem write_pt_list_items_nil : write_pt_list_items [] = .ok [] := rfl

theorem write_pt_list_items_cons (t : PropertyTree) (ts : List PropertyTree)
    (bs bss : List Nat) (h1 : write_property_tree t = .ok bs)
    (h2 : write_pt_list_items ts = .ok bss) :
    write_pt_list_items (t :: ts) = .ok ([1] ++ bs ++ bss) := by
  rw [show write_pt_list_items (t :: ts)
    = (write_property_tree t >>= fun bs => write_pt_list_items ts >>= fun bss =>
        pure (write_string [] ++ bs ++ bss)) from rfl, h1]
  rw [show ((Except.ok bs : Except Error (List Nat)) >>= fun bs =>
      write_pt_list_items ts >>= fun bss =>
        pure (write_string [] ++ bs ++ bss))
    = (write_pt_list_items ts >>= fun bss =>
        pure (write_string [] ++ bs ++ bss)) from rfl, h2]
  rfl

theorem write_pt_dict_items_nil : write_pt_dict_items [] = .ok [] := rfl

theorem write_pt_dict_items_cons (k : List Nat) (v : PropertyTree)
    (rest : List (List Nat × PropertyTree)) (bs bss : List Nat)
    (h1 : write_property_tree v = .ok bs)
    (h2 : write_pt_dict_items rest = .ok bss) :
    write_pt_dict_items ((k, v) :: rest) = .ok (write_string k ++ bs ++ bss) := by
  rw [show write_pt_dict_items ((k, v) :: rest)
    = (write_property_tree v >>= fun bs => write_pt_dict_items rest >>= fun bss =>
        pure (write_string k ++ bs ++ bss)) from rfl, h1]
  rw [show ((Except.ok bs : Except Error (List Nat)) >>= fun bs =>
      write_pt_dict_items rest >>= fun bss =>
        pure (write_string k ++ bs ++ bss))
    = (write_pt_dict_items rest >>= fun bss =>
        pure (write_string k ++ bs ++ bss)) from rfl, h2]
  rfl

end Serialiser

mutual

/-- The encoder has no failure path: `PropertyTreeType::try_into` succeeds
for all six variants, so `write_property_tree` always returns `Ok`. -/
theorem write_property_tree_total (t : PropertyTree) :
    ∃ bs, Serialiser.write_property_tree t = .ok bs := by
  match t with
  | .none => exact ⟨_, Serialiser.write_pt_none⟩
  | .bool b => exact ⟨_, Serialiser.write_pt_bool b⟩
  | .number bits => exact ⟨_, Serialiser.write_pt_number bits⟩
  | .string s => exact ⟨_, Serialiser.write_pt_string s⟩
  | .list items =>
    obtain ⟨body, hbody⟩ := write_pt_list_items_total items
    exact ⟨_, Serialiser.write_pt_list_eq items body hbody⟩
  | .dictionary entries =>
    obtain ⟨body, hbody⟩ := write_pt_dict_items_total entries
    exact ⟨_, Serialiser.write_pt_dict_eq entries body hbody⟩

theorem write_pt_list_items_total (ts : List PropertyTree) :
    ∃ bs, Serialiser.write_pt_list_items ts = .ok bs := by
  match ts with
  | [] => exact ⟨_, Serialiser.write_pt_list_items_nil⟩
  | t :: ts2 =>
    obtain ⟨bs, hbs⟩ := write_property_tree_total t
    obtain ⟨bss, hbss⟩ := write_pt_list_items_total ts2
    exact ⟨_, Serialiser.write_pt_list_items_cons t ts2 bs bss hbs hbss⟩

theorem write_pt_dict_items_total (entries : List (List Nat × PropertyTree)) :
    ∃ bs, Serialiser.write_pt_dict_items entries = .ok bs := by
  match entries with
  | [] => exact ⟨_, Serialiser.write_pt_dict_items_nil⟩
  | (k, v) :: rest =>
    obtain ⟨bs, hbs⟩ := write_property_tree_total v
    obtain ⟨bss, hbss⟩ := write_pt_dict_items_total rest
    exact ⟨_, Serialiser.write_pt_dict_items_cons k v rest bs bss hbs hbss⟩

end

/-!  ## Equations and eliminations for the tree decoder -/

namespace Deserialiser

theorem pt_fuel_nil (f : Nat) :
    parse_property_tree_fuel (f + 1) [] = .err .Eof := rfl

theorem pt_fuel_one (f b : Nat) :
    parse_property_tree_fuel (f + 1) [b] = .err .Eof := rfl

theorem pt_fuel_none_eq (f flag : Nat) (s2 : List Nat) :
    parse_property_tree_fuel (f + 1) (0 :: flag :: s2) = .ok (.none, s2) := rfl

theorem pt_fuel_bool_eq (f flag : Nat) (s2 s3 : List Nat) (b : Bool)
    (h : parse_bool s2 = .ok (b, s3)) :
    parse_property_tree_fuel (f + 1) (1 :: flag :: s2) = .ok (.bool b, s3) := by
  show (parse_bool s2).andThen2 (fun c s4 => PResult.ok (PropertyTree.bool c, s4))
    = PResult.ok (PropertyTree.bool b, s3)
  rw [h, PResult.andThen2_ok_apply]

theorem pt_fuel_number_eq (f flag : Nat) (s2 s3 : List Nat) (bits : Nat)
    (h : parse_double s2 = .ok (bits, s3)) :
    parse_property_tree_fuel (f + 1) (2 :: flag :: s2) = .ok (.number bits, s3) := by
  show (parse_double s2).andThen2
    (fun c s4 => PResult.ok (PropertyTree.number c, s4))
    = PResult.ok (PropertyTree.number bits, s3)
  rw [h, PResult.andThen2_ok_apply]

theorem pt_fuel_string_eq (f flag : Nat) (s2 s3 : List Nat) (str : List Nat)
    (h : parse_string s2 = .ok (str, s3)) :
    parse_property_tree_fuel (f + 1) (3 :: flag :: s2) = .ok (.string str, s3) := by
  show (parse_string s2).andThen2
    (fun c s4 => PResult.ok (PropertyTree.string c, s4))
    = PResult.ok (PropertyTree.string str, s3)
  rw [h, PResult.andThen2_ok_apply]

theorem pt_fuel_list_eq (f flag : Nat) (s2 s3 s4 : List Nat) (len : Nat)
    (items : List PropertyTree) (h1 : next_u32 s2 = .ok (len, s3))
    (h2 : parse_pt_list_items f len s3 = .ok (items, s4)) :
    parse_property_tree_fuel (f + 1) (4 :: flag :: s2) = .ok (.list items, s4) := by
  show (next_u32 s2).andThen2 (fun c sa =>
    (parse_pt_list_items f c sa).andThen2 fun l sb =>
      PResult.ok (PropertyTree.list l, sb))
    = PResult.ok (PropertyTree.list items, s4)
  rw [h1, PResult.andThen2_ok_apply, h2, PResult.andThen2_ok_apply]

theorem pt_fuel_dict_eq (f flag : Nat) (s2 s3 s4 : List Nat) (len : Nat)
    (entries : List (List Nat × PropertyTree)) (h1 : next_u32 s2 = .ok (len, s3))
    (h2 : parse_pt_dict_items f len s3 = .ok (entries, s4)) :
    parse_property_tree_fuel (f + 1) (5 :: flag :: s2) =
      .ok (.dictionary entries, s4) := by
  show (next_u32 s2).andThen2 (fun c sa =>
    (parse_pt_dict_items f c sa).andThen2 fun d sb =>
      PResult.ok (PropertyTree.dictionary d, sb))
    = PResult.ok (PropertyTree.dictionary entries, s4)
  rw [h1, PResult.andThen2_ok_apply, h2, PResult.andThen2_ok_apply]

theorem pt_list_items_zero (f : Nat) (s : List Nat) :
    parse_pt_list_items (f + 1) 0 s = .ok ([], s) := rfl

theorem pt_list_items_succ_eq (f n : Nat) (s s1 s2 s3 : List Nat)
    (lbl : List Nat) (t : PropertyTree) (items : List PropertyTree)
    (h1 : parse_string s = .ok (lbl, s1))
    (h2 : parse_property_tree_fuel f s1 = .ok (t, s2))
    (h3 : parse_pt_list_items f n s2 = .ok (items, s3)) :
    parse_pt_list_items (f + 1) (n + 1) s = .ok (t :: items, s3) := by
  show (parse_string s).andThen2 (fun _unused sa =>
    (parse_property_tree_fuel f sa).andThen2 fun u sb =>
      (parse_pt_list_items f n sb).andThen2 fun l sc =>
        PResult.ok (u :: l, sc))
    = PResult.ok (t :: items, s3)
  rw [h1, PResult.andThen2_ok_apply, h2, PResult.andThen2_ok_apply, h3,
    PResult.andThen2_ok_apply]

theorem pt_dict_items_zero (f : Nat) (s : List Nat) :
    parse_pt_dict_items (f + 1) 0 s = .ok ([], s) := rfl

theorem pt_dict_items_succ_eq (f n : Nat) (s s1 s2 s3 : List Nat)
    (key : List Nat) (value : PropertyTree)
    (entries : List (List Nat × PropertyTree))
    (h1 : parse_string s = .ok (key, s1))
    (h2 : parse_property_tree_fuel f s1 = .ok (value, s2))
    (h3 : parse_pt_dict_items f n s2 = .ok (entries, s3)) :
    parse_pt_dict_items (f + 1) (n + 1) s = .ok ((key, value) :: entries, s3) := by
  show (parse_string s).andThen2 (fun k sa =>
    (parse_property_tree_fuel f sa).andThen2 fun u sb =>
      (parse_pt_dict_items f n sb).andThen2 fun d sc =>
        PResult.ok ((k, u) :: d, sc))
    = PResult.ok ((key, value) :: entries, s3)
  rw [h1, PResult.andThen2_ok_apply, h2, PResult.andThen2_ok_apply, h3,
    PResult.andThen2_ok_apply]

theorem parse_double_ok {s : List Nat} {v : Nat} {s1 : List Nat}
    (h : parse_double s = .ok (v, s1)) :
    ∃ b0 b1 b2 b3 b4 b5 b6 b7,
      s = b0 :: b1 :: b2 :: b3 :: b4 :: b5 :: b6 :: b7 :: s1
      ∧ v = b0 + 256 * b1 + 256 ^ 2 * b2 + 256 ^ 3 * b3 + 256 ^ 4 * b4
            + 256 ^ 5 * b5 + 256 ^ 6 * b6 + 256 ^ 7 * b7 := by
  match s with
  | [] => exact absurd h (by simp [parse_double])
  | [_] => exact absurd h (by simp [parse_double])
  | [_, _] => exact absurd h (by simp [parse_double])
  | [_, _, _] => exact absurd h (by simp [parse_double])
  | [_, _, _, _] => exact absurd h (by simp [parse_double])
  | [_, _, _, _, _] => exact absurd h (by simp [parse_double])
  | [_, _, _, _, _, _] => exact absurd h (by simp [parse_double])
  | [_, _, _, _, _, _, _] => exact absurd h (by simp [parse_double])
  | b0 :: b1 :: b2 :: b3 :: b4 :: b5 :: b6 :: b7 :: rest =>
    obtain ⟨rfl, rfl⟩ : b0 + 256 * b1 + 256 ^ 2 * b2 + 256 ^ 3 * b3
        + 256 ^ 4 * b4 + 256 ^ 5 * b5 + 256 ^ 6 * b6 + 256 ^ 7 * b7 = v
        ∧ rest = s1 := by simpa [parse_double] using h
    exact ⟨b0, b1, b2, b3, b4, b5, b6, b7, rfl, rfl⟩

end Deserialiser

/-!  ## Byte-buffer facts -/

theorem bytesWF_cons {b : Nat} {s : List Nat} (h : bytesWF (b :: s)) :
    b < 256 ∧ bytesWF s :=
  ⟨h b (List.mem_cons_self b s), fun x hx => h x (List.mem_cons_of_mem b hx)⟩

theorem bytesWF_take {s : List Nat} (n : Nat) (h : bytesWF s) :
    bytesWF (s.take n) := fun x hx => h x (List.take_subset n s hx)

theorem bytesWF_drop {s : List Nat} (n : Nat) (h : bytesWF s) :
    bytesWF (s.drop n) := fun x hx => h x (List.drop_subset n s hx)

theorem wfStr_nil : wfStr [] := by
  refine ⟨by simp, rfl, by norm_num⟩

theorem Deserialiser.next_u32_optim_wf {s : List Nat} {v : Nat} {s1 : List Nat}
    (hb : bytesWF s) (h : Deserialiser.next_u32_optim s = .ok (v, s1)) :
    v < 2 ^ 32 ∧ bytesWF s1 := by
  obtain ⟨b, s2, hb8, hrest⟩ := DeserM.bind_ok h
  obtain rfl := Deserialiser.next_u8_ok hb8
  obtain ⟨hblt, hbtail⟩ := bytesWF_cons hb
  by_cases hbb : (b != 0xFF) = true
  · rw [if_pos hbb] at hrest
    obtain ⟨rfl, rfl⟩ := DeserM.pure_ok hrest
    exact ⟨by omega, hbtail⟩
  · rw [if_neg hbb] at hrest
    obtain ⟨b0, b1, b2, b3, heq, rfl⟩ := Deserialiser.next_u32_ok hrest
    subst heq
    have h0 := bytesWF_cons hbtail
    have h1 := bytesWF_cons h0.2
    have h2 := bytesWF_cons h1.2
    have h3 := bytesWF_cons h2.2
    refine ⟨by omega, h3.2⟩

theorem Deserialiser.parse_string_wf {s str s1 : List Nat}
    (hb : bytesWF s) (h : Deserialiser.parse_string s = .ok (str, s1)) :
    wfStr str ∧ bytesWF s1 := by
  match s with
  | [] => exact absurd h (by simp [Deserialiser.parse_string,
      Deserialiser.underscore_parse_string, Bind.bind, DeserM.bind,
      Deserialiser.parse_bool, Deserialiser.next_u8])
  | 0 :: rest =>
    rw [parse_string_zero, DeserM.bind_apply] at h
    obtain ⟨hbtail⟩ : bytesWF rest ∧ True := ⟨(bytesWF_cons hb).2, trivial⟩
    match hlen : Deserialiser.next_u32_optim rest with
    | .ok (len, s2) =>
      rw [hlen] at h
      obtain ⟨_, hbs2⟩ := Deserialiser.next_u32_optim_wf hbtail hlen
      simp only [Deserialiser.take_string_body] at h
      by_cases hle : len ≤ s2.length
      · rw [if_pos hle] at h
        by_cases hutf : validUtf8 (s2.take len) = true
        · rw [if_pos hutf] at h
          obtain ⟨rfl, rfl⟩ : s2.take len = str ∧ s2.drop len = s1 := by
            simpa using h
          refine ⟨⟨fun x hx => hbs2 x (List.take_subset len s2 hx), hutf, ?_⟩,
            bytesWF_drop len hbs2⟩
          have : (s2.take len).length = min len s2.length :=
            List.length_take len s2
          omega
        · rw [if_neg hutf] at h; exact absurd h (by simp)
      · rw [if_neg hle] at h; exact absurd h (by simp)
    | .err e => rw [hlen] at h; exact absurd h (by simp)
    | .panic => rw [hlen] at h; exact absurd h (by simp)
  | (b + 1) :: rest =>
    rw [show Deserialiser.parse_string ((b + 1) :: rest) = .ok ([], rest)
      from rfl] at h
    obtain ⟨rfl, rfl⟩ : ([] : List Nat) = str ∧ rest = s1 := by simpa using h
    exact ⟨wfStr_nil, (bytesWF_cons hb).2⟩

/-!  ## Facts about the tree well-formedness predicates -/

theorem wf_none : PropertyTree.wf .none := by simp [PropertyTree.wf]

theorem wf_bool (b : Bool) : PropertyTree.wf (.bool b) := by
  simp [PropertyTree.wf]

theorem wf_number {bits : Nat} (h : bits < 2 ^ 64) :
    PropertyTree.wf (.number bits) := by simpa [PropertyTree.wf] using h

theorem wf_string {s : List Nat} (h : wfStr s) :
    PropertyTree.wf (.string s) := by simpa [PropertyTree.wf] using h

theorem wf_list_iff (items : List PropertyTree) :
    PropertyTree.wf (.list items)
      ↔ items.length < 2 ^ 32 ∧ PropertyTree.wfList items := by
  simp [PropertyTree.wf]

theorem wf_dict_iff (entries : List (List Nat × PropertyTree)) :
    PropertyTree.wf (.dictionary entries)
      ↔ entries.length < 2 ^ 32 ∧ PropertyTree.wfDict entries := by
  simp [PropertyTree.wf]

theorem wf_number_iff (bits : Nat) :
    PropertyTree.wf (.number bits) ↔ bits < 2 ^ 64 := by
  simp [PropertyTree.wf]

theorem wf_string_iff (s : List Nat) :
    PropertyTree.wf (.string s) ↔ wfStr s := by
  simp [PropertyTree.wf]

theorem wfList_nil : PropertyTree.wfList [] := by simp [PropertyTree.wfList]

theorem wfList_cons_iff (t : PropertyTree) (ts : List PropertyTree) :
    PropertyTree.wfList (t :: ts)
      ↔ PropertyTree.wf t ∧ PropertyTree.wfList ts := by
  simp [PropertyTree.wfList]

theorem wfDict_nil : PropertyTree.wfDict [] := by simp [PropertyTree.wfDict]

theorem wfDict_cons_iff (k : List Nat) (v : PropertyTree)
    (rest : List (List Nat × PropertyTree)) :
    PropertyTree.wfDict ((k, v) :: rest)
      ↔ wfStr k ∧ PropertyTree.wf v ∧ PropertyTree.wfDict rest := by
  simp [PropertyTree.wfDict]

theorem wfDict_mem {entries : List (List Nat × PropertyTree)}
    {k : List Nat} {v : PropertyTree} (h : PropertyTree.wfDict entries)
    (hm : (k, v) ∈ entries) : wfStr k ∧ PropertyTree.wf v := by
  induction entries with
  | nil => cases hm
  | cons p rest ih =>
    obtain ⟨kp, vp⟩ := p
    rw [wfDict_cons_iff] at h
    rcases List.mem_cons.mp hm with heq | hmem
    · cases heq
      exact ⟨h.1, h.2.1⟩
    · exact ih h.2.2 hmem

/-!  ## What the tree decoder produces is well formed -/

theorem pt_fuel_wf_all (fuel : Nat) :
    (∀ s t s1, bytesWF s → Deserialiser.parse_property_tree_fuel fuel s = .ok (t, s1) →
      PropertyTree.wf t ∧ bytesWF s1)
  ∧ (∀ n s items s1, bytesWF s →
      Deserialiser.parse_pt_list_items fuel n s = .ok (items, s1) →
      PropertyTree.wfList items ∧ items.length = n ∧ bytesWF s1)
  ∧ (∀ n s entries s1, bytesWF s →
      Deserialiser.parse_pt_dict_items fuel n s = .ok (entries, s1) →
      PropertyTree.wfDict entries ∧ entries.length = n ∧ bytesWF s1) := by
  induction fuel with
  | zero =>
    refine ⟨fun s t s1 _ h => absurd h (by simp [Deserialiser.parse_property_tree_fuel]),
      fun n s items s1 _ h => absurd h (by simp [Deserialiser.parse_pt_list_items]),
      fun n s entries s1 _ h => absurd h (by simp [Deserialiser.parse_pt_dict_items])⟩
  | succ f ih =>
    obtain ⟨ihgo, ihlist, ihdict⟩ := ih
    refine ⟨?_, ?_, ?_⟩
    · -- parse_property_tree_fuel
      intro s t s1 hb h
      match s with
      | [] => exact absurd h (by simp [Deserialiser.pt_fuel_nil])
      | [b] => exact absurd h (by simp [Deserialiser.pt_fuel_one])
      | t8 :: flag :: s2 =>
        obtain ⟨ht8, hb2⟩ := bytesWF_cons hb
        obtain ⟨hflag, hb3⟩ := bytesWF_cons hb2
        replace h : (match PropertyTreeType.try_from t8 with
            | .error e => PResult.err e
            | .ok .none => PResult.ok (PropertyTree.none, s2)
            | .ok .bool => (Deserialiser.parse_bool s2).andThen2 fun b s3 =>
                .ok (.bool b, s3)
            | .ok .number => (Deserialiser.parse_double s2).andThen2 fun bits s3 =>
                .ok (.number bits, s3)
            | .ok .string => (Deserialiser.parse_string s2).andThen2 fun str s3 =>
                .ok (.string str, s3)
            | .ok .list => (Deserialiser.next_u32 s2).andThen2 fun len s3 =>
                (Deserialiser.parse_pt_list_items f len s3).andThen2 fun items s4 =>
                  .ok (.list items, s4)
            | .ok .dictionary => (Deserialiser.next_u32 s2).andThen2 fun len s3 =>
                (Deserialiser.parse_pt_dict_items f len s3).andThen2 fun entries s4 =>
                  .ok (.dictionary entries, s4))
            = .ok (t, s1) := h
        match htt : PropertyTreeType.try_from t8 with
        | .error e =>
          rw [htt] at h
          exact absurd h (by simp)
        | .ok .none =>
          rw [htt] at h
          obtain ⟨rfl, rfl⟩ : PropertyTree.none = t ∧ s2 = s1 := by
            simpa using h
          exact ⟨wf_none, hb3⟩
        | .ok .bool =>
          rw [htt] at h
          replace h : (Deserialiser.parse_bool s2).andThen2
              (fun b s3 => .ok (.bool b, s3)) = .ok (t, s1) := h
          obtain ⟨b, s3, hpb, h3⟩ := PResult.andThen2_ok h
          obtain ⟨rfl, rfl⟩ : PropertyTree.bool b = t ∧ s3 = s1 := by
            simpa using h3
          obtain ⟨bb, rfl, rfl⟩ := Deserialiser.parse_bool_ok hpb
          exact ⟨wf_bool _, (bytesWF_cons hb3).2⟩
        | .ok .number =>
          rw [htt] at h
          replace h : (Deserialiser.parse_double s2).andThen2
              (fun bits s3 => .ok (.number bits, s3)) = .ok (t, s1) := h
          obtain ⟨bits, s3, hpd, h3⟩ := PResult.andThen2_ok h
          obtain ⟨rfl, rfl⟩ : PropertyTree.number bits = t ∧ s3 = s1 := by
            simpa using h3
          obtain ⟨b0, b1, b2, b3, b4, b5, b6, b7, heq, rfl⟩ :=
            Deserialiser.parse_double_ok hpd
          subst heq
          have c0 := bytesWF_cons hb3
          have c1 := bytesWF_cons c0.2
          have c2 := bytesWF_cons c1.2
          have c3 := bytesWF_cons c2.2
          have c4 := bytesWF_cons c3.2
          have c5 := bytesWF_cons c4.2
          have c6 := bytesWF_cons c5.2
          have c7 := bytesWF_cons c6.2
          have d0 : b0 < 256 := c0.1
          have d1 : b1 < 256 := c1.1
          have d2 : b2 < 256 := c2.1
          have d3 : b3 < 256 := c3.1
          have d4 : b4 < 256 := c4.1
          have d5 : b5 < 256 := c5.1
          have d6 : b6 < 256 := c6.1
          have d7 : b7 < 256 := c7.1
          refine ⟨wf_number (by omega), c7.2⟩
        | .ok .string =>
          rw [htt] at h
          replace h : (Deserialiser.parse_string s2).andThen2
              (fun str s3 => .ok (.string str, s3)) = .ok (t, s1) := h
          obtain ⟨str, s3, hps, h3⟩ := PResult.andThen2_ok h
          obtain ⟨rfl, rfl⟩ : PropertyTree.string str = t ∧ s3 = s1 := by
            simpa using h3
          obtain ⟨hstr, hb4⟩ := Deserialiser.parse_string_wf hb3 hps
          exact ⟨wf_string hstr, hb4⟩
        | .ok .list =>
          rw [htt] at h
          replace h : (Deserialiser.next_u32 s2).andThen2 (fun len s3 =>
              (Deserialiser.parse_pt_list_items f len s3).andThen2 fun items s4 =>
                .ok (.list items, s4)) = .ok (t, s1) := h
          obtain ⟨len, s3, hnu, h3⟩ := PResult.andThen2_ok h
          obtain ⟨items, s4, hli, h4⟩ := PResult.andThen2_ok h3
          obtain ⟨rfl, rfl⟩ : PropertyTree.list items = t ∧ s4 = s1 := by
            simpa using h4
          obtain ⟨bl0, bl1, bl2, bl3, heq, rfl⟩ := Deserialiser.next_u32_ok hnu
          subst heq
          have c0 := bytesWF_cons hb3
          have c1 := bytesWF_cons c0.2
          have c2 := bytesWF_cons c1.2
          have c3 := bytesWF_cons c2.2
          obtain ⟨hwfl, hlen, hb4⟩ := ihlist _ _ _ _ c3.2 hli
          have d0 : bl0 < 256 := c0.1
          have d1 : bl1 < 256 := c1.1
          have d2 : bl2 < 256 := c2.1
          have d3 : bl3 < 256 := c3.1
          exact ⟨(wf_list_iff items).mpr ⟨by omega, hwfl⟩, hb4⟩
        | .ok .dictionary =>
          rw [htt] at h
          replace h : (Deserialiser.next_u32 s2).andThen2 (fun len s3 =>
              (Deserialiser.parse_pt_dict_items f len s3).andThen2 fun entries s4 =>
                .ok (.dictionary entries, s4)) = .ok (t, s1) := h
          obtain ⟨len, s3, hnu, h3⟩ := PResult.andThen2_ok h
          obtain ⟨entries, s4, hdi, h4⟩ := PResult.andThen2_ok h3
          obtain ⟨rfl, rfl⟩ : PropertyTree.dictionary entries = t ∧ s4 = s1 := by
            simpa using h4
          obtain ⟨bl0, bl1, bl2, bl3, heq, rfl⟩ := Deserialiser.next_u32_ok hnu
          subst heq
          have c0 := bytesWF_cons hb3
          have c1 := bytesWF_cons c0.2
          have c2 := bytesWF_cons c1.2
          have c3 := bytesWF_cons c2.2
          obtain ⟨hwfd, hlen, hb4⟩ := ihdict _ _ _ _ c3.2 hdi
          have d0 : bl0 < 256 := c0.1
          have d1 : bl1 < 256 := c1.1
          have d2 : bl2 < 256 := c2.1
          have d3 : bl3 < 256 := c3.1
          exact ⟨(wf_dict_iff entries).mpr ⟨by omega, hwfd⟩, hb4⟩
    · -- parse_pt_list_items
      intro n s items s1 hb h
      match n with
      | 0 =>
        rw [Deserialiser.pt_list_items_zero] at h
        obtain ⟨rfl, rfl⟩ : ([] : List PropertyTree) = items ∧ s = s1 := by
          simpa using h
        exact ⟨wfList_nil, rfl, hb⟩
      | n + 1 =>
        replace h : (Deserialiser.parse_string s).andThen2 (fun _unused s1 =>
            (Deserialiser.parse_property_tree_fuel f s1).andThen2 fun t s2 =>
              (Deserialiser.parse_pt_list_items f n s2).andThen2 fun items s3 =>
                .ok (t :: items, s3)) = .ok (items, s1) := h
        obtain ⟨lbl, sa, hps, h2⟩ := PResult.andThen2_ok h
        obtain ⟨_, hba⟩ := Deserialiser.parse_string_wf hb hps
        obtain ⟨t, sb, hgo, h3⟩ := PResult.andThen2_ok h2
        obtain ⟨hwt, hbb⟩ := ihgo _ _ _ hba hgo
        obtain ⟨items2, sc, hre, h4⟩ := PResult.andThen2_ok h3
        obtain ⟨rfl, rfl⟩ : t :: items2 = items ∧ sc = s1 := by simpa using h4
        obtain ⟨hwl, hlen, hbc⟩ := ihlist _ _ _ _ hbb hre
        exact ⟨(wfList_cons_iff t items2).mpr ⟨hwt, hwl⟩, by simp [hlen], hbc⟩
    · -- parse_pt_dict_items
      intro n s entries s1 hb h
      match n with
      | 0 =>
        rw [Deserialiser.pt_dict_items_zero] at h
        obtain ⟨rfl, rfl⟩ : ([] : List (List Nat × PropertyTree)) = entries
            ∧ s = s1 := by simpa using h
        exact ⟨wfDict_nil, rfl, hb⟩
      | n + 1 =>
        replace h : (Deserialiser.parse_string s).andThen2 (fun key s1 =>
            (Deserialiser.parse_property_tree_fuel f s1).andThen2 fun value s2 =>
              (Deserialiser.parse_pt_dict_items f n s2).andThen2 fun entries s3 =>
                .ok ((key, value) :: entries, s3)) = .ok (entries, s1) := h
        obtain ⟨key, sa, hps, h2⟩ := PResult.andThen2_ok h
        obtain ⟨hwk, hba⟩ := Deserialiser.parse_string_wf hb hps
        obtain ⟨value, sb, hgo, h3⟩ := PResult.andThen2_ok h2
        obtain ⟨hwv, hbb⟩ := ihgo _ _ _ hba hgo
        obtain ⟨entries2, sc, hre, h4⟩ := PResult.andThen2_ok h3
        obtain ⟨rfl, rfl⟩ : (key, value) :: entries2 = entries ∧ sc = s1 := by
          simpa using h4
        obtain ⟨hwd, hlen, hbc⟩ := ihdict _ _ _ _ hbb hre
        exact ⟨(wfDict_cons_iff key value entries2).mpr ⟨hwk, hwv, hwd⟩,
          by simp [hlen], hbc⟩

/-!  ## Fuel adequacy

The fuel argument of `parse_property_tree_fuel` is an artifact of the
embedding: the source recursion terminates because every nested parse
consumes input.  The lemmas below make that precise: a successful parse
consumes at least its two leading bytes, the result is independent of the
fuel once the fuel exceeds the input length, and hence the instantiation
`s.length + 1` used by `parse_property_tree` is always sufficient.
-/

/-- A successful `parse_string` consumes at least one byte (the
empty-string indicator). -/
theorem parse_string_consumes {s str s1 : List Nat}
    (h : Deserialiser.parse_string s = .ok (str, s1)) : s1.length < s.length := by
  match s with
  | [] => exact absurd h (by simp [Deserialiser.parse_string,
      Deserialiser.underscore_parse_string, Bind.bind, DeserM.bind,
      Deserialiser.parse_bool, Deserialiser.next_u8])
  | 0 :: rest =>
    rw [parse_string_zero, DeserM.bind_apply] at h
    match hlen : Deserialiser.next_u32_optim rest with
    | .ok (len, s2) =>
      rw [hlen] at h
      have hs2 : s2.length ≤ rest.length := by
        obtain ⟨b, s3, hb, hif⟩ := DeserM.bind_ok hlen
        obtain rfl := Deserialiser.next_u8_ok hb
        by_cases hbb : (b != 0xFF) = true
        · rw [if_pos hbb] at hif
          obtain ⟨-, rfl⟩ := DeserM.pure_ok hif
          simp
        · rw [if_neg hbb] at hif
          obtain ⟨b0, b1, b2, b3, heq, -⟩ := Deserialiser.next_u32_ok hif
          subst heq
          simp
          omega
      simp only [Deserialiser.take_string_body] at h
      by_cases hle : len ≤ s2.length
      · rw [if_pos hle] at h
        by_cases hutf : validUtf8 (s2.take len) = true
        · rw [if_pos hutf] at h
          obtain ⟨-, rfl⟩ : s2.take len = str ∧ s2.drop len = s1 := by simpa using h
          have := List.length_drop len s2
          simp only [List.length_cons]
          omega
        · rw [if_neg hutf] at h; exact absurd h (by simp)
      · rw [if_neg hle] at h; exact absurd h (by simp)
    | .err e => rw [hlen] at h; exact absurd h (by simp)
    | .panic => rw [hlen] at h; exact absurd h (by simp)
  | (b + 1) :: rest =>
    rw [show Deserialiser.parse_string ((b + 1) :: rest) = .ok ([], rest)
      from rfl] at h
    obtain ⟨-, rfl⟩ : ([] : List Nat) = str ∧ rest = s1 := by simpa using h
    simp

/-- A successful `parse_property_tree_fuel` consumes at least its two
leading bytes, and the item loops never produce output longer than their
input; this is the termination measure of the source recursion. -/
theorem pt_fuel_consumes (fuel : Nat) :
    (∀ s t s1, Deserialiser.parse_property_tree_fuel fuel s = .ok (t, s1) →
      s1.length + 2 ≤ s.length)
  ∧ (∀ n s items s1, Deserialiser.parse_pt_list_items fuel n s = .ok (items, s1) →
      s1.length ≤ s.length)
  ∧ (∀ n s entries s1, Deserialiser.parse_pt_dict_items fuel n s = .ok (entries, s1) →
      s1.length ≤ s.length) := by
  induction fuel with
  | zero =>
    refine ⟨fun s t s1 h => absurd h (by simp [Deserialiser.parse_property_tree_fuel]),
      fun n s items s1 h => absurd h (by simp [Deserialiser.parse_pt_list_items]),
      fun n s entries s1 h => absurd h (by simp [Deserialiser.parse_pt_dict_items])⟩
  | succ f ih =>
    obtain ⟨ihgo, ihlist, ihdict⟩ := ih
    refine ⟨?_, ?_, ?_⟩
    · intro s t s1 h
      match s with
      | [] => exact absurd h (by simp [Deserialiser.pt_fuel_nil])
      | [b] => exact absurd h (by simp [Deserialiser.pt_fuel_one])
      | t8 :: flag :: s2 =>
        replace h : (match PropertyTreeType.try_from t8 with
            | .error e => PResult.err e
            | .ok .none => PResult.ok (PropertyTree.none, s2)
            | .ok .bool => (Deserialiser.parse_bool s2).andThen2 fun b s3 =>
                .ok (.bool b, s3)
            | .ok .number => (Deserialiser.parse_double s2).andThen2 fun bits s3 =>
                .ok (.number bits, s3)
            | .ok .string => (Deserialiser.parse_string s2).andThen2 fun str s3 =>
                .ok (.string str, s3)
            | .ok .list => (Deserialiser.next_u32 s2).andThen2 fun len s3 =>
                (Deserialiser.parse_pt_list_items f len s3).andThen2 fun items s4 =>
                  .ok (.list items, s4)
            | .ok .dictionary => (Deserialiser.next_u32 s2).andThen2 fun len s3 =>
                (Deserialiser.parse_pt_dict_items f len s3).andThen2 fun entries s4 =>
                  .ok (.dictionary entries, s4))
            = .ok (t, s1) := h
        match htt : PropertyTreeType.try_from t8 with
        | .error e =>
          rw [htt] at h
          exact absurd h (by simp)
        | .ok .none =>
          rw [htt] at h
          obtain ⟨rfl, rfl⟩ : PropertyTree.none = t ∧ s2 = s1 := by
            simpa using h
          simp
        | .ok .bool =>
          rw [htt] at h
          replace h : (Deserialiser.parse_bool s2).andThen2
              (fun b s3 => .ok (.bool b, s3)) = .ok (t, s1) := h
          obtain ⟨b, s3, hpb, h3⟩ := PResult.andThen2_ok h
          obtain ⟨rfl, rfl⟩ : PropertyTree.bool b = t ∧ s3 = s1 := by
            simpa using h3
          obtain ⟨bb, rfl, rfl⟩ := Deserialiser.parse_bool_ok hpb
          simp
        | .ok .number =>
          rw [htt] at h
          replace h : (Deserialiser.parse_double s2).andThen2
              (fun bits s3 => .ok (.number bits, s3)) = .ok (t, s1) := h
          obtain ⟨bits, s3, hpd, h3⟩ := PResult.andThen2_ok h
          obtain ⟨rfl, rfl⟩ : PropertyTree.number bits = t ∧ s3 = s1 := by
            simpa using h3
          obtain ⟨b0, b1, b2, b3, b4, b5, b6, b7, heq, rfl⟩ :=
            Deserialiser.parse_double_ok hpd
          subst heq
          simp
        | .ok .string =>
          rw [htt] at h
          replace h : (Deserialiser.parse_string s2).andThen2
              (fun str s3 => .ok (.string str, s3)) = .ok (t, s1) := h
          obtain ⟨str, s3, hps, h3⟩ := PResult.andThen2_ok h
          obtain ⟨rfl, rfl⟩ : PropertyTree.string str = t ∧ s3 = s1 := by
            simpa using h3
          have := parse_string_consumes hps
          simp only [List.length_cons]
          omega
        | .ok .list =>
          rw [htt] at h
          replace h : (Deserialiser.next_u32 s2).andThen2 (fun len s3 =>
              (Deserialiser.parse_pt_list_items f len s3).andThen2 fun items s4 =>
                .ok (.list items, s4)) = .ok (t, s1) := h
          obtain ⟨len, s3, hnu, h3⟩ := PResult.andThen2_ok h
          obtain ⟨items, s4, hli, h4⟩ := PResult.andThen2_ok h3
          obtain ⟨rfl, rfl⟩ : PropertyTree.list items = t ∧ s4 = s1 := by
            simpa using h4
          obtain ⟨bl0, bl1, bl2, bl3, heq, rfl⟩ := Deserialiser.next_u32_ok hnu
          subst heq
          have := ihlist _ _ _ _ hli
          simp only [List.length_cons]
          omega
        | .ok .dictionary =>
          rw [htt] at h
          replace h : (Deserialiser.next_u32 s2).andThen2 (fun len s3 =>
              (Deserialiser.parse_pt_dict_items f len s3).andThen2 fun entries s4 =>
                .ok (.dictionary entries, s4)) = .ok (t, s1) := h
          obtain ⟨len, s3, hnu, h3⟩ := PResult.andThen2_ok h
          obtain ⟨entries, s4, hdi, h4⟩ := PResult.andThen2_ok h3
          obtain ⟨rfl, rfl⟩ : PropertyTree.dictionary entries = t ∧ s4 = s1 := by
            simpa using h4
          obtain ⟨bl0, bl1, bl2, bl3, heq, rfl⟩ := Deserialiser.next_u32_ok hnu
          subst heq
          have := ihdict _ _ _ _ hdi
          simp only [List.length_cons]
          omega
    · intro n s items s1 h
      match n with
      | 0 =>
        rw [Deserialiser.pt_list_items_zero] at h
        obtain ⟨rfl, rfl⟩ : ([] : List PropertyTree) = items ∧ s = s1 := by
          simpa using h
        exact Nat.le_refl _
      | n + 1 =>
        replace h : (Deserialiser.parse_string s).andThen2 (fun _unused s1 =>
            (Deserialiser.parse_property_tree_fuel f s1).andThen2 fun t s2 =>
              (Deserialiser.parse_pt_list_items f n s2).andThen2 fun items s3 =>
                .ok (t :: items, s3)) = .ok (items, s1) := h
        obtain ⟨lbl, sa, hps, h2⟩ := PResult.andThen2_ok h
        obtain ⟨t, sb, hgo, h3⟩ := PResult.andThen2_ok h2
        obtain ⟨items2, sc, hre, h4⟩ := PResult.andThen2_ok h3
        obtain ⟨rfl, rfl⟩ : t :: items2 = items ∧ sc = s1 := by simpa using h4
        have c1 := parse_string_consumes hps
        have c2 := ihgo _ _ _ hgo
        have c3 := ihlist _ _ _ _ hre
        omega
    · intro n s entries s1 h
      match n with
      | 0 =>
        rw [Deserialiser.pt_dict_items_zero] at h
        obtain ⟨rfl, rfl⟩ : ([] : List (List Nat × PropertyTree)) = entries
            ∧ s = s1 := by simpa using h
        exact Nat.le_refl _
      | n + 1 =>
        replace h : (Deserialiser.parse_string s).andThen2 (fun key s1 =>
            (Deserialiser.parse_property_tree_fuel f s1).andThen2 fun value s2 =>
              (Deserialiser.parse_pt_dict_items f n s2).andThen2 fun entries s3 =>
                .ok ((key, value) :: entries, s3)) = .ok (entries, s1) := h
        obtain ⟨key, sa, hps, h2⟩ := PResult.andThen2_ok h
        obtain ⟨value, sb, hgo, h3⟩ := PResult.andThen2_ok h2
        obtain ⟨entries2, sc, hre, h4⟩ := PResult.andThen2_ok h3
        obtain ⟨rfl, rfl⟩ : (key, value) :: entries2 = entries ∧ sc = s1 := by
          simpa using h4
        have c1 := parse_string_consumes hps
        have c2 := ihgo _ _ _ hgo
        have c3 := ihdict _ _ _ _ hre
        omega

/-- Fuel irrelevance: any two fuel values exceeding the input length give
identical results, for the tree parser and both item loops.  The proof is
by strong induction on the input length, using `pt_fuel_consumes` and
`parse_string_consumes` for the strict decrease at each nested call. -/
theorem pt_fuel_irrelevance (L : Nat) :
    ∀ s : List Nat, s.length < L → ∀ f1 f2 : Nat, s.length < f1 → s.length < f2 →
    (Deserialiser.parse_property_tree_fuel f1 s
       = Deserialiser.parse_property_tree_fuel f2 s)
  ∧ (∀ n, Deserialiser.parse_pt_list_items f1 n s
       = Deserialiser.parse_pt_list_items f2 n s)
  ∧ (∀ n, Deserialiser.parse_pt_dict_items f1 n s
       = Deserialiser.parse_pt_dict_items f2 n s) := by
  induction L with
  | zero => intro s hs; omega
  | succ L ih =>
    intro s hs f1 f2 h1 h2
    obtain ⟨g1, rfl⟩ : ∃ g, f1 = g + 1 := ⟨f1 - 1, by omega⟩
    obtain ⟨g2, rfl⟩ : ∃ g, f2 = g + 1 := ⟨f2 - 1, by omega⟩
    refine ⟨?_, ?_, ?_⟩
    · match s with
      | [] => rfl
      | [b] => rfl
      | t8 :: flag :: s2 =>
        show (match PropertyTreeType.try_from t8 with
            | .error e => PResult.err e
            | .ok .none => PResult.ok (PropertyTree.none, s2)
            | .ok .bool => (Deserialiser.parse_bool s2).andThen2 fun b s3 =>
                .ok (.bool b, s3)
            | .ok .number => (Deserialiser.parse_double s2).andThen2 fun bits s3 =>
                .ok (.number bits, s3)
            | .ok .string => (Deserialiser.parse_string s2).andThen2 fun str s3 =>
                .ok (.string str, s3)
            | .ok .list => (Deserialiser.next_u32 s2).andThen2 fun len s3 =>
                (Deserialiser.parse_pt_list_items g1 len s3).andThen2 fun items s4 =>
                  .ok (.list items, s4)
            | .ok .dictionary => (Deserialiser.next_u32 s2).andThen2 fun len s3 =>
                (Deserialiser.parse_pt_dict_items g1 len s3).andThen2 fun entries s4 =>
                  .ok (.dictionary entries, s4))
          = (match PropertyTreeType.try_from t8 with
            | .error e => PResult.err e
            | .ok .none => PResult.ok (PropertyTree.none, s2)
            | .ok .bool => (Deserialiser.parse_bool s2).andThen2 fun b s3 =>
                .ok (.bool b, s3)
            | .ok .number => (Deserialiser.parse_double s2).andThen2 fun bits s3 =>
                .ok (.number bits, s3)
            | .ok .string => (Deserialiser.parse_string s2).andThen2 fun str s3 =>
                .ok (.string str, s3)
            | .ok .list => (Deserialiser.next_u32 s2).andThen2 fun len s3 =>
                (Deserialiser.parse_pt_list_items g2 len s3).andThen2 fun items s4 =>
                  .ok (.list items, s4)
            | .ok .dictionary => (Deserialiser.next_u32 s2).andThen2 fun len s3 =>
                (Deserialiser.parse_pt_dict_items g2 len s3).andThen2 fun entries s4 =>
                  .ok (.dictionary entries, s4))
        match htt : PropertyTreeType.try_from t8 with
        | .error e => rfl
        | .ok .none => rfl
        | .ok .bool => rfl
        | .ok .number => rfl
        | .ok .string => rfl
        | .ok .list =>
          show (Deserialiser.next_u32 s2).andThen2 (fun len s3 =>
              (Deserialiser.parse_pt_list_items g1 len s3).andThen2 fun items s4 =>
                PResult.ok (PropertyTree.list items, s4))
            = (Deserialiser.next_u32 s2).andThen2 (fun len s3 =>
              (Deserialiser.parse_pt_list_items g2 len s3).andThen2 fun items s4 =>
                PResult.ok (PropertyTree.list items, s4))
          match hnu : Deserialiser.next_u32 s2 with
          | .err e => rfl
          | .panic => rfl
          | .ok (len, s3) =>
            simp only [PResult.andThen2_ok_apply]
            obtain ⟨bl0, bl1, bl2, bl3, heq, -⟩ := Deserialiser.next_u32_ok hnu
            subst heq
            simp only [List.length_cons] at hs h1 h2
            have hrec := (ih s3 (by omega) g1 g2 (by omega) (by omega)).2.1 len
            rw [hrec]
        | .ok .dictionary =>
          show (Deserialiser.next_u32 s2).andThen2 (fun len s3 =>
              (Deserialiser.parse_pt_dict_items g1 len s3).andThen2 fun entries s4 =>
                PResult.ok (PropertyTree.dictionary entries, s4))
            = (Deserialiser.next_u32 s2).andThen2 (fun len s3 =>
              (Deserialiser.parse_pt_dict_items g2 len s3).andThen2 fun entries s4 =>
                PResult.ok (PropertyTree.dictionary entries, s4))
          match hnu : Deserialiser.next_u32 s2 with
          | .err e => rfl
          | .panic => rfl
          | .ok (len, s3) =>
            simp only [PResult.andThen2_ok_apply]
            obtain ⟨bl0, bl1, bl2, bl3, heq, -⟩ := Deserialiser.next_u32_ok hnu
            subst heq
            simp only [List.length_cons] at hs h1 h2
            have hrec := (ih s3 (by omega) g1 g2 (by omega) (by omega)).2.2 len
            rw [hrec]
    · intro n
      match n with
      | 0 => rfl
      | n + 1 =>
        show (Deserialiser.parse_string s).andThen2 (fun _unused s1 =>
            (Deserialiser.parse_property_tree_fuel g1 s1).andThen2 fun t s2 =>
              (Deserialiser.parse_pt_list_items g1 n s2).andThen2 fun items s3 =>
                .ok (t :: items, s3))
          = (Deserialiser.parse_string s).andThen2 (fun _unused s1 =>
            (Deserialiser.parse_property_tree_fuel g2 s1).andThen2 fun t s2 =>
              (Deserialiser.parse_pt_list_items g2 n s2).andThen2 fun items s3 =>
                .ok (t :: items, s3))
        match hps : Deserialiser.parse_string s with
        | .err e => rfl
        | .panic => rfl
        | .ok (lbl, s1) =>
          simp only [PResult.andThen2_ok_apply]
          have hc1 : s1.length < s.length := parse_string_consumes hps
          have hgo := (ih s1 (by omega) g1 g2 (by omega) (by omega)).1
          rw [← hgo]
          match hg : Deserialiser.parse_property_tree_fuel g1 s1 with
          | .err e => rfl
          | .panic => rfl
          | .ok (t, s2) =>
            simp only [PResult.andThen2_ok_apply]
            have hc2 : s2.length + 2 ≤ s1.length := (pt_fuel_consumes g1).1 _ _ _ hg
            have hrec := (ih s2 (by omega) g1 g2 (by omega) (by omega)).2.1 n
            rw [hrec]
    · intro n
      match n with
      | 0 => rfl
      | n + 1 =>
        show (Deserialiser.parse_string s).andThen2 (fun key s1 =>
            (Deserialiser.parse_property_tree_fuel g1 s1).andThen2 fun value s2 =>
              (Deserialiser.parse_pt_dict_items g1 n s2).andThen2 fun entries s3 =>
                .ok ((key, value) :: entries, s3))
          = (Deserialiser.parse_string s).andThen2 (fun key s1 =>
            (Deserialiser.parse_property_tree_fuel g2 s1).andThen2 fun value s2 =>
              (Deserialiser.parse_pt_dict_items g2 n s2).andThen2 fun entries s3 =>
                .ok ((key, value) :: entries, s3))
        match hps : Deserialiser.parse_string s with
        | .err e => rfl
        | .panic => rfl
        | .ok (key, s1) =>
          simp only [PResult.andThen2_ok_apply]
          have hc1 : s1.length < s.length := parse_string_consumes hps
          have hgo := (ih s1 (by omega) g1 g2 (by omega) (by omega)).1
          rw [← hgo]
          match hg : Deserialiser.parse_property_tree_fuel g1 s1 with
          | .err e => rfl
          | .panic => rfl
          | .ok (value, s2) =>
            simp only [PResult.andThen2_ok_apply]
            have hc2 : s2.length + 2 ≤ s1.length := (pt_fuel_consumes g1).1 _ _ _ hg
            have hrec := (ih s2 (by omega) g1 g2 (by omega) (by omega)).2.2 n
            rw [hrec]

/-- Any fuel exceeding the input length computes exactly
`Deserialiser.parse_property_tree`: the fuel-exhaustion `.panic` branch is
unreachable for the instantiation the embedding uses. -/
theorem parse_property_tree_fuel_ge (fuel : Nat) (s : List Nat)
    (h : s.length < fuel) :
    Deserialiser.parse_property_tree_fuel fuel s
      = Deserialiser.parse_property_tree s :=
  (pt_fuel_irrelevance (s.length + 1) s (Nat.lt_succ_self _)
    fuel (s.length + 1) h (Nat.lt_succ_self _)).1


/-!  ## Write-then-parse round trip for whole trees -/

mutual

theorem write_parse_pt (t : PropertyTree) (hwf : PropertyTree.wf t)
    (bs : List Nat) (hw : Serialiser.write_property_tree t = .ok bs)
    (fuel : Nat) (rest : List Nat) (hf : bs.length < fuel) :
    Deserialiser.parse_property_tree_fuel fuel (bs ++ rest) = .ok (t, rest) := by
  obtain ⟨f, rfl⟩ : ∃ f, fuel = f + 1 := ⟨fuel - 1, by omega⟩
  match t with
  | .none =>
    rw [Serialiser.write_pt_none] at hw
    obtain rfl : [0, 0] = bs := by simpa using hw
    exact Deserialiser.pt_fuel_none_eq f 0 rest
  | .bool b =>
    rw [Serialiser.write_pt_bool] at hw
    obtain rfl : [1, 0] ++ Serialiser.write_bool b = bs := by simpa using hw
    show Deserialiser.parse_property_tree_fuel (f + 1)
      (1 :: 0 :: (Serialiser.write_bool b ++ rest)) = .ok (.bool b, rest)
    exact Deserialiser.pt_fuel_bool_eq f 0 _ _ b (parse_bool_write b rest)
  | .number bits =>
    rw [Serialiser.write_pt_number] at hw
    obtain rfl : [2, 0] ++ Serialiser.write_double bits = bs := by simpa using hw
    show Deserialiser.parse_property_tree_fuel (f + 1)
      (2 :: 0 :: (Serialiser.write_double bits ++ rest)) = .ok (.number bits, rest)
    exact Deserialiser.pt_fuel_number_eq f 0 _ _ bits
      (parse_double_write bits rest ((wf_number_iff bits).mp hwf))
  | .string str =>
    rw [Serialiser.write_pt_string] at hw
    obtain rfl : [3, 0] ++ Serialiser.write_string str = bs := by simpa using hw
    show Deserialiser.parse_property_tree_fuel (f + 1)
      (3 :: 0 :: (Serialiser.write_string str ++ rest)) = .ok (.string str, rest)
    exact Deserialiser.pt_fuel_string_eq f 0 _ _ str
      (parse_string_write str rest ((wf_string_iff str).mp hwf))
  | .list items =>
    obtain ⟨hlen, hwl⟩ := (wf_list_iff items).mp hwf
    match hbody : Serialiser.write_pt_list_items items with
    | .error e =>
      rw [show Serialiser.write_property_tree (.list items)
        = (Serialiser.write_pt_list_items items >>= fun body =>
            pure ([4, 0] ++ Serialiser.write_u32 (items.length % 2 ^ 32) ++ body))
        from rfl, hbody] at hw
      exact absurd hw (by simp [Bind.bind, Except.bind])
    | .ok body =>
      rw [Serialiser.write_pt_list_eq items body hbody] at hw
      obtain rfl : [4, 0] ++ Serialiser.write_u32 (items.length % 2 ^ 32) ++ body
          = bs := by simpa using hw
      have hmod : items.length % 2 ^ 32 = items.length := Nat.mod_eq_of_lt hlen
      rw [hmod] at hf ⊢
      have hblen : body.length < f := by
        have : ([4, 0] ++ Serialiser.write_u32 items.length ++ body).length
            = 6 + body.length := by
          simp [Serialiser.write_u32]
          omega
        omega
      show Deserialiser.parse_property_tree_fuel (f + 1)
        (4 :: 0 :: (Serialiser.write_u32 items.length ++ (body ++ rest)))
          = .ok (.list items, rest)
      exact Deserialiser.pt_fuel_list_eq f 0 _ _ _ _ items
        (next_u32_write items.length (body ++ rest) hlen)
        (write_parse_pt_list items hwl body hbody f rest hblen)
  | .dictionary entries =>
    obtain ⟨hlen, hwd⟩ := (wf_dict_iff entries).mp hwf
    match hbody : Serialiser.write_pt_dict_items entries with
    | .error e =>
      rw [show Serialiser.write_property_tree (.dictionary entries)
        = (Serialiser.write_pt_dict_items entries >>= fun body =>
            pure ([5, 0] ++ Serialiser.write_u32 (entries.length % 2 ^ 32) ++ body))
        from rfl, hbody] at hw
      exact absurd hw (by simp [Bind.bind, Except.bind])
    | .ok body =>
      rw [Serialiser.write_pt_dict_eq entries body hbody] at hw
      obtain rfl : [5, 0] ++ Serialiser.write_u32 (entries.length % 2 ^ 32) ++ body
          = bs := by simpa using hw
      have hmod : entries.length % 2 ^ 32 = entries.length := Nat.mod_eq_of_lt hlen
      rw [hmod] at hf ⊢
      have hblen : body.length < f := by
        have : ([5, 0] ++ Serialiser.write_u32 entries.length ++ body).length
            = 6 + body.length := by
          simp [Serialiser.write_u32]
          omega
        omega
      show Deserialiser.parse_property_tree_fuel (f + 1)
        (5 :: 0 :: (Serialiser.write_u32 entries.length ++ (body ++ rest)))
          = .ok (.dictionary entries, rest)
      exact Deserialiser.pt_fuel_dict_eq f 0 _ _ _ _ entries
        (next_u32_write entries.length (body ++ rest) hlen)
        (write_parse_pt_dict entries hwd body hbody f rest hblen)

theorem write_parse_pt_list (ts : List PropertyTree)
    (hwf : PropertyTree.wfList ts) (bs : List Nat)
    (hw : Serialiser.write_pt_list_items ts = .ok bs)
    (fuel : Nat) (rest : List Nat) (hf : bs.length < fuel) :
    Deserialiser.parse_pt_list_items fuel ts.length (bs ++ rest) = .ok (ts, rest) := by
  obtain ⟨f, rfl⟩ : ∃ f, fuel = f + 1 := ⟨fuel - 1, by omega⟩
  match ts with
  | [] =>
    rw [Serialiser.write_pt_list_items_nil] at hw
    obtain rfl : [] = bs := by simpa using hw
    exact Deserialiser.pt_list_items_zero f rest
  | t :: ts2 =>
    obtain ⟨hwt, hwts⟩ := (wfList_cons_iff t ts2).mp hwf
    match hbs1 : Serialiser.write_property_tree t with
    | .error e =>
      rw [show Serialiser.write_pt_list_items (t :: ts2)
        = (Serialiser.write_property_tree t >>= fun bs =>
            Serialiser.write_pt_list_items ts2 >>= fun bss =>
              pure (Serialiser.write_string [] ++ bs ++ bss)) from rfl, hbs1] at hw
      exact absurd hw (by simp [Bind.bind, Except.bind])
    | .ok bs1 =>
      match hbss : Serialiser.write_pt_list_items ts2 with
      | .error e =>
        rw [show Serialiser.write_pt_list_items (t :: ts2)
          = (Serialiser.write_property_tree t >>= fun bs =>
              Serialiser.write_pt_list_items ts2 >>= fun bss =>
                pure (Serialiser.write_string [] ++ bs ++ bss)) from rfl,
          hbs1, hbss] at hw
        exact absurd hw (by simp [Bind.bind, Except.bind])
      | .ok bss =>
        rw [Serialiser.write_pt_list_items_cons t ts2 bs1 bss hbs1 hbss] at hw
        obtain rfl : [1] ++ bs1 ++ bss = bs := by simpa using hw
        have hl1 : bs1.length < f := by
          have : ([1] ++ bs1 ++ bss).length = 1 + bs1.length + bss.length := by
            simp
            omega
          omega
        have hl2 : bss.length < f := by
          have : ([1] ++ bs1 ++ bss).length = 1 + bs1.length + bss.length := by
            simp
            omega
          omega
        show Deserialiser.parse_pt_list_items (f + 1) (ts2.length + 1)
          (([1] ++ bs1 ++ bss) ++ rest) = .ok (t :: ts2, rest)
        rw [List.append_assoc, List.append_assoc]
        exact Deserialiser.pt_list_items_succ_eq f ts2.length _ _ _ _ [] t ts2
          (parse_string_empty_flag (bs1 ++ (bss ++ rest)))
          (write_parse_pt t hwt bs1 hbs1 f (bss ++ rest) hl1)
          (write_parse_pt_list ts2 hwts bss hbss f rest hl2)

theorem write_parse_pt_dict (entries : List (List Nat × PropertyTree))
    (hwf : PropertyTree.wfDict entries) (bs : List Nat)
    (hw : Serialiser.write_pt_dict_items entries = .ok bs)
    (fuel : Nat) (rest : List Nat) (hf : bs.length < fuel) :
    Deserialiser.parse_pt_dict_items fuel entries.length (bs ++ rest)
      = .ok (entries, rest) := by
  obtain ⟨f, rfl⟩ : ∃ f, fuel = f + 1 := ⟨fuel - 1, by omega⟩
  match entries with
  | [] =>
    rw [Serialiser.write_pt_dict_items_nil] at hw
    obtain rfl : [] = bs := by simpa using hw
    exact Deserialiser.pt_dict_items_zero f rest
  | (k, v) :: rest2 =>
    obtain ⟨hwk, hwv, hwr⟩ := (wfDict_cons_iff k v rest2).mp hwf
    match hbs1 : Serialiser.write_property_tree v with
    | .error e =>
      rw [show Serialiser.write_pt_dict_items ((k, v) :: rest2)
        = (Serialiser.write_property_tree v >>= fun bs =>
            Serialiser.write_pt_dict_items rest2 >>= fun bss =>
              pure (Serialiser.write_string k ++ bs ++ bss)) from rfl, hbs1] at hw
      exact absurd hw (by simp [Bind.bind, Except.bind])
    | .ok bs1 =>
      match hbss : Serialiser.write_pt_dict_items rest2 with
      | .error e =>
        rw [show Serialiser.write_pt_dict_items ((k, v) :: rest2)
          = (Serialiser.write_property_tree v >>= fun bs =>
              Serialiser.write_pt_dict_items rest2 >>= fun bss =>
                pure (Serialiser.write_string k ++ bs ++ bss)) from rfl,
          hbs1, hbss] at hw
        exact absurd hw (by simp [Bind.bind, Except.bind])
      | .ok bss =>
        rw [Serialiser.write_pt_dict_items_cons k v rest2 bs1 bss hbs1 hbss] at hw
        obtain rfl : Serialiser.write_string k ++ bs1 ++ bss = bs := by
          simpa using hw
        have hkpos := write_string_length_pos k
        have hlensum : (Serialiser.write_string k ++ bs1 ++ bss).length
            = (Serialiser.write_string k).length + bs1.length + bss.length := by
          simp
          omega
        have hl1 : bs1.length < f := by omega
        have hl2 : bss.length < f := by omega
        show Deserialiser.parse_pt_dict_items (f + 1) (rest2.length + 1)
          (Serialiser.write_string k ++ bs1 ++ bss ++ rest) = .ok ((k, v) :: rest2, rest)
        rw [List.append_assoc, List.append_assoc]
        exact Deserialiser.pt_dict_items_succ_eq f rest2.length _ _ _ _ k v rest2
          (parse_string_write k (bs1 ++ (bss ++ rest)) hwk)
          (write_parse_pt v hwv bs1 hbs1 f (bss ++ rest) hl1)
          (write_parse_pt_dict rest2 hwr bss hbss f rest hl2)

end


/-!  ## The ModSettings decoder on a well-formed frame -/

/-- What `ModSettings::try_from` returns once the version, the false
sentinel and a top-level Dictionary tree consuming the rest of the input
up to `r` have been read (see `try_from_frame`). -/
def modSettingsOutcome (b0 b1 b2 b3 b4 b5 b6 b7 : Nat)
    (dict : List (List Nat × PropertyTree)) (r : List Nat) : PResult ModSettings :=
  match ModSettings.extract_sections dict with
  | .error e => .err e
  | .ok (st, rg, ru) =>
    match r with
    | [] => .ok { version := { main := b0 + 256 * b1, major := b2 + 256 * b3,
                               minor := b4 + 256 * b5, developer := b6 + 256 * b7 },
                  startup := st, runtime_global := rg, runtime_per_user := ru }
    | _ :: _ => .err .TrailingBytes

theorem try_from_frame (b0 b1 b2 b3 b4 b5 b6 b7 : Nat) (s r : List Nat)
    (dict : List (List Nat × PropertyTree))
    (h : Deserialiser.parse_property_tree s = .ok (.dictionary dict, r)) :
    ModSettings.try_from (b0 :: b1 :: b2 :: b3 :: b4 :: b5 :: b6 :: b7 :: 0 :: s) =
      modSettingsOutcome b0 b1 b2 b3 b4 b5 b6 b7 dict r := by
  rw [show ModSettings.try_from
      (b0 :: b1 :: b2 :: b3 :: b4 :: b5 :: b6 :: b7 :: 0 :: s)
      = PResult.map Prod.fst
        ((Deserialiser.parse_property_tree >>= fun top =>
          (match top with
           | PropertyTree.dictionary dict =>
             (match ModSettings.extract_sections dict with
              | Except.error e => DeserM.throw e
              | Except.ok (st, rg, ru) =>
                fun s2 =>
                  match Deserialiser.peek_u8 s2 with
                  | PResult.err Error.Eof =>
                    PResult.ok
                      ({ version := { main := b0 + 256 * b1, major := b2 + 256 * b3,
                                      minor := b4 + 256 * b5,
                                      developer := b6 + 256 * b7 },
                         startup := st, runtime_global := rg,
                         runtime_per_user := ru }, s2)
                  | _ => PResult.err Error.TrailingBytes)
           | _ => DeserM.throw (Error.Syntax "Top-level PropertyTree not dictionary type")
           : DeserM ModSettings)) s) from rfl,
    DeserM.bind_apply, h]
  show PResult.map Prod.fst
      ((match ModSettings.extract_sections dict with
        | Except.error e => DeserM.throw e
        | Except.ok (st, rg, ru) =>
          fun s2 =>
            match Deserialiser.peek_u8 s2 with
            | PResult.err Error.Eof =>
              PResult.ok
                ({ version := { main := b0 + 256 * b1, major := b2 + 256 * b3,
                                minor := b4 + 256 * b5,
                                developer := b6 + 256 * b7 },
                   startup := st, runtime_global := rg,
                   runtime_per_user := ru }, s2)
            | _ => PResult.err Error.TrailingBytes
        : DeserM ModSettings) r)
    = modSettingsOutcome b0 b1 b2 b3 b4 b5 b6 b7 dict r
  match hex : ModSettings.extract_sections dict with
  | .error e =>
    simp only [modSettingsOutcome, hex]
    rfl
  | .ok (st, rg, ru) =>
    simp only [modSettingsOutcome, hex]
    match r with
    | [] => rfl
    | x :: xs => rfl



/-- Decomposition of a successful `ModSettings::try_from` run: the input
begins with 8 version bytes and the false sentinel, the rest parses as a
top-level Dictionary consuming everything, and the result's sections come
from the section extraction. -/
theorem try_from_ok_elim {input : List Nat} {m : ModSettings}
    (h : ModSettings.try_from input = .ok m) :
    ∃ b0 b1 b2 b3 b4 b5 b6 b7 s dict,
      input = b0 :: b1 :: b2 :: b3 :: b4 :: b5 :: b6 :: b7 :: 0 :: s
      ∧ Deserialiser.parse_property_tree s = .ok (.dictionary dict, [])
      ∧ ModSettings.extract_sections dict
          = .ok (m.startup, m.runtime_global, m.runtime_per_user)
      ∧ m.version = ⟨b0 + 256 * b1, b2 + 256 * b3, b4 + 256 * b5, b6 + 256 * b7⟩ := by
  rw [show ModSettings.try_from input
      = PResult.map Prod.fst
        ((Deserialiser.parse_version >>= fun version =>
          Deserialiser.parse_bool >>= fun false_sentinel =>
          (if false_sentinel then
            DeserM.throw (Error.Syntax
              "After-version sentinel expected to be false, got true")
          else
            Deserialiser.parse_property_tree >>= fun top =>
            (match top with
             | PropertyTree.dictionary dict =>
               (match ModSettings.extract_sections dict with
                | Except.error e => DeserM.throw e
                | Except.ok (st, rg, ru) =>
                  fun s2 =>
                    match Deserialiser.peek_u8 s2 with
                    | PResult.err Error.Eof =>
                      PResult.ok (⟨version, st, rg, ru⟩, s2)
                    | _ => PResult.err Error.TrailingBytes)
             | _ => DeserM.throw
                 (Error.Syntax "Top-level PropertyTree not dictionary type")
             : DeserM ModSettings))) input) from rfl] at h
  match hrun : (Deserialiser.parse_version >>= fun version =>
      Deserialiser.parse_bool >>= fun false_sentinel =>
      (if false_sentinel then
        DeserM.throw (Error.Syntax
          "After-version sentinel expected to be false, got true")
      else
        Deserialiser.parse_property_tree >>= fun top =>
        (match top with
         | PropertyTree.dictionary dict =>
           (match ModSettings.extract_sections dict with
            | Except.error e => DeserM.throw e
            | Except.ok (st, rg, ru) =>
              fun s2 =>
                match Deserialiser.peek_u8 s2 with
                | PResult.err Error.Eof =>
                  PResult.ok (⟨version, st, rg, ru⟩, s2)
                | _ => PResult.err Error.TrailingBytes)
         | _ => DeserM.throw
             (Error.Syntax "Top-level PropertyTree not dictionary type")
         : DeserM ModSettings))) input, h with
  | .ok (m2, sfin), h =>
    obtain rfl : m2 = m := by simpa [PResult.map] using h
    obtain ⟨ver, s1, hver, h2⟩ := DeserM.bind_ok hrun
    obtain ⟨b0, b1, b2, b3, b4, b5, b6, b7, rfl, rfl⟩ :=
      Deserialiser.parse_version_ok hver
    obtain ⟨sent, s2, hsent, h3⟩ := DeserM.bind_ok h2
    obtain ⟨z, heq, rfl⟩ := Deserialiser.parse_bool_ok hsent
    by_cases hz : (z != 0) = true
    · rw [if_pos hz] at h3
      exact absurd h3 (by simp [DeserM.throw])
    · rw [if_neg hz] at h3
      obtain rfl : z = 0 := by simpa using hz
      obtain ⟨top, s3, htop, h4⟩ := DeserM.bind_ok h3
      match top, h4 with
      | PropertyTree.dictionary dict, h4 =>
        replace h4 : (match ModSettings.extract_sections dict with
            | Except.error e => DeserM.throw e
            | Except.ok (st, rg, ru) =>
              (fun s2 =>
                match Deserialiser.peek_u8 s2 with
                | PResult.err Error.Eof =>
                  PResult.ok
                    ((⟨⟨b0 + 256 * b1, b2 + 256 * b3, b4 + 256 * b5,
                        b6 + 256 * b7⟩, st, rg, ru⟩ : ModSettings), s2)
                | _ => PResult.err Error.TrailingBytes : DeserM ModSettings)) s3
            = .ok (m2, sfin) := h4
        match hex : ModSettings.extract_sections dict with
        | .error e =>
          rw [hex] at h4
          exact absurd h4 (by simp [DeserM.throw])
        | .ok (st, rg, ru) =>
          rw [hex] at h4
          replace h4 : (match Deserialiser.peek_u8 s3 with
              | PResult.err Error.Eof =>
                PResult.ok
                  ((⟨⟨b0 + 256 * b1, b2 + 256 * b3, b4 + 256 * b5,
                      b6 + 256 * b7⟩, st, rg, ru⟩ : ModSettings), s3)
              | _ => PResult.err Error.TrailingBytes)
              = .ok (m2, sfin) := h4
          match s3, h4 with
          | [], h4 =>
            rw [Deserialiser.peek_u8_nil] at h4
            have h5 : (⟨⟨b0 + 256 * b1, b2 + 256 * b3, b4 + 256 * b5,
                b6 + 256 * b7⟩, st, rg, ru⟩ : ModSettings) = m2
                ∧ ([] : List Nat) = sfin := by simpa using h4
            have hm := h5.1
            refine ⟨b0, b1, b2, b3, b4, b5, b6, b7, s2, dict, by simpa using heq,
              htop, ?_, ?_⟩
            · rw [hex, ← hm]
            · rw [← hm]
          | x :: xs, h4 =>
            rw [Deserialiser.peek_u8_cons] at h4
            exact absurd h4 (by simp)
      | PropertyTree.none, h4 => exact absurd h4 (by simp [DeserM.throw])
      | PropertyTree.bool b, h4 => exact absurd h4 (by simp [DeserM.throw])
      | PropertyTree.number bits, h4 => exact absurd h4 (by simp [DeserM.throw])
      | PropertyTree.string str, h4 => exact absurd h4 (by simp [DeserM.throw])
      | PropertyTree.list items, h4 => exact absurd h4 (by simp [DeserM.throw])
  | .err e, h => exact absurd h (by simp [PResult.map])
  | .panic, h => exact absurd h (by simp [PResult.map])


/-!  ## Decode-then-encode stability -/

theorem extract_sections_ok_elim {dict : List (List Nat × PropertyTree)}
    {st rg ru : PropertyTree}
    (h : ModSettings.extract_sections dict = .ok (st, rg, ru)) :
    hashMapRemove dict startupKey = Option.some st
    ∧ hashMapRemove dict runtimeGlobalKey = Option.some rg
    ∧ hashMapRemove dict runtimePerUserKey = Option.some ru := by
  unfold ModSettings.extract_sections at h
  match hsk : hashMapRemove dict startupKey with
  | Option.none => rw [hsk] at h; exact absurd h (by simp)
  | Option.some a =>
    rw [hsk] at h
    replace h : (match hashMapRemove dict runtimeGlobalKey with
        | Option.none =>
          Except.error (Error.Syntax "Settings section 'runtime-global' missing")
        | Option.some runtime_global =>
          match hashMapRemove dict runtimePerUserKey with
          | Option.none =>
            Except.error (Error.Syntax "Settings section 'runtime-per-user' missing")
          | Option.some runtime_per_user =>
            Except.ok (a, runtime_global, runtime_per_user))
        = Except.ok (st, rg, ru) := h
    match hrg : hashMapRemove dict runtimeGlobalKey with
    | Option.none => rw [hrg] at h; exact absurd h (by simp)
    | Option.some b =>
      rw [hrg] at h
      replace h : (match hashMapRemove dict runtimePerUserKey with
          | Option.none =>
            Except.error (Error.Syntax "Settings section 'runtime-per-user' missing")
          | Option.some runtime_per_user =>
            Except.ok (a, b, runtime_per_user))
          = Except.ok (st, rg, ru) := h
      match hru : hashMapRemove dict runtimePerUserKey with
      | Option.none => rw [hru] at h; exact absurd h (by simp)
      | Option.some c =>
        rw [hru] at h
        obtain ⟨rfl, rfl, rfl⟩ : a = st ∧ b = rg ∧ c = ru := by simpa using h
        exact ⟨rfl, rfl, rfl⟩

theorem hashMapRemove_some_mem {dict : List (List Nat × PropertyTree)}
    {k : List Nat} {v : PropertyTree} (h : hashMapRemove dict k = Option.some v) :
    (k, v) ∈ dict := by
  unfold hashMapRemove at h
  match hf : dict.reverse.find? (fun p => decide (p.1 = k)) with
  | Option.none => rw [hf] at h; exact absurd h (by simp)
  | Option.some p =>
    rw [hf] at h
    obtain rfl : p.2 = v := by simpa using h
    have hp1 : p.1 = k := by simpa using List.find?_some hf
    have hmem : p ∈ dict.reverse := List.mem_of_find?_eq_some hf
    rw [List.mem_reverse] at hmem
    have : p = (k, p.2) := by
      rw [← hp1]
    rw [← this]
    exact hmem

theorem try_into_eq (ms : ModSettings) (bs : List Nat)
    (h : Serialiser.write_property_tree (.dictionary
      [(startupKey, ms.startup), (runtimeGlobalKey, ms.runtime_global),
       (runtimePerUserKey, ms.runtime_per_user)]) = .ok bs) :
    ModSettings.try_into ms = .ok (Serialiser.write_version ms.version.toU64
      ++ Serialiser.write_bool false ++ bs) := by
  rw [show ModSettings.try_into ms
    = (Serialiser.write_property_tree (.dictionary
        [(startupKey, ms.startup), (runtimeGlobalKey, ms.runtime_global),
         (runtimePerUserKey, ms.runtime_per_user)]) >>= fun tree =>
        pure (Serialiser.write_version ms.version.toU64
          ++ Serialiser.write_bool false ++ tree)) from rfl, h]
  rfl

theorem extract_sections_triple (st rg ru : PropertyTree) :
    ModSettings.extract_sections
      [(startupKey, st), (runtimeGlobalKey, rg), (runtimePerUserKey, ru)]
      = .ok (st, rg, ru) := rfl

theorem version_wf_of_bytes (b0 b1 b2 b3 b4 b5 b6 b7 : Nat)
    (h0 : b0 < 256) (h1 : b1 < 256) (h2 : b2 < 256) (h3 : b3 < 256)
    (h4 : b4 < 256) (h5 : b5 < 256) (h6 : b6 < 256) (h7 : b7 < 256) :
    Version.wf ⟨b0 + 256 * b1, b2 + 256 * b3, b4 + 256 * b5, b6 + 256 * b7⟩ := by
  refine ⟨?_, ?_, ?_, ?_⟩
  · show b0 + 256 * b1 < 2 ^ 16
    omega
  · show b2 + 256 * b3 < 2 ^ 16
    omega
  · show b4 + 256 * b5 < 2 ^ 16
    omega
  · show b6 + 256 * b7 < 2 ^ 16
    omega

theorem decode_then_encode {b : List Nat} {m1 : ModSettings}
    (hb : ∀ x ∈ b, x < 256) (h : ModSettings.try_from b = .ok m1) :
    ∃ e2, ModSettings.try_into m1 = .ok e2 ∧ ModSettings.try_from e2 = .ok m1 := by
  obtain ⟨b0, b1, b2, b3, b4, b5, b6, b7, s, dict, rfl, htop, hex, hver⟩ :=
    try_from_ok_elim h
  -- byte bounds
  have c0 := bytesWF_cons hb
  have c1 := bytesWF_cons c0.2
  have c2 := bytesWF_cons c1.2
  have c3 := bytesWF_cons c2.2
  have c4 := bytesWF_cons c3.2
  have c5 := bytesWF_cons c4.2
  have c6 := bytesWF_cons c5.2
  have c7 := bytesWF_cons c6.2
  have c8 := bytesWF_cons c7.2
  have hbs : bytesWF s := c8.2
  -- well-formedness of the decoded tree
  have hwfdict : PropertyTree.wf (.dictionary dict) :=
    ((pt_fuel_wf_all (s.length + 1)).1 s _ [] hbs htop).1
  have hwfd : PropertyTree.wfDict dict := ((wf_dict_iff dict).mp hwfdict).2
  obtain ⟨hsk, hrg, hru⟩ := extract_sections_ok_elim hex
  have hwst : PropertyTree.wf m1.startup := (wfDict_mem hwfd (hashMapRemove_some_mem hsk)).2
  have hwrg : PropertyTree.wf m1.runtime_global :=
    (wfDict_mem hwfd (hashMapRemove_some_mem hrg)).2
  have hwru : PropertyTree.wf m1.runtime_per_user :=
    (wfDict_mem hwfd (hashMapRemove_some_mem hru)).2
  have hkey1 : wfStr startupKey := by
    refine ⟨by decide, by decide, by decide⟩
  have hkey2 : wfStr runtimeGlobalKey := by
    refine ⟨by decide, by decide, by decide⟩
  have hkey3 : wfStr runtimePerUserKey := by
    refine ⟨by decide, by decide, by decide⟩
  have hwtree : PropertyTree.wf (.dictionary
      [(startupKey, m1.startup), (runtimeGlobalKey, m1.runtime_global),
       (runtimePerUserKey, m1.runtime_per_user)]) := by
    refine (wf_dict_iff _).mpr ⟨by norm_num, ?_⟩
    exact (wfDict_cons_iff _ _ _).mpr ⟨hkey1, hwst,
      (wfDict_cons_iff _ _ _).mpr ⟨hkey2, hwrg,
        (wfDict_cons_iff _ _ _).mpr ⟨hkey3, hwru, wfDict_nil⟩⟩⟩
  -- encode
  obtain ⟨bs, hbsw⟩ := write_property_tree_total (.dictionary
    [(startupKey, m1.startup), (runtimeGlobalKey, m1.runtime_global),
     (runtimePerUserKey, m1.runtime_per_user)])
  have henc := try_into_eq m1 bs hbsw
  refine ⟨_, henc, ?_⟩
  -- decode the re-encoding
  have hparse : Deserialiser.parse_property_tree bs = .ok (.dictionary
      [(startupKey, m1.startup), (runtimeGlobalKey, m1.runtime_global),
       (runtimePerUserKey, m1.runtime_per_user)], []) := by
    have hrt := write_parse_pt _ hwtree bs hbsw (bs.length + 1) [] (by omega)
    rw [List.append_nil] at hrt
    exact hrt
  have hvwf : Version.wf m1.version := by
    rw [hver]
    exact version_wf_of_bytes _ _ _ _ _ _ _ _ c0.1 c1.1 c2.1 c3.1 c4.1 c5.1 c6.1 c7.1
  obtain ⟨hv1, hv2, hv3, hv4⟩ := hvwf
  have hfr := try_from_frame
    (m1.version.toU64 / 2 ^ 48 % 2 ^ 16 % 256)
    (m1.version.toU64 / 2 ^ 48 % 2 ^ 16 / 256 % 256)
    (m1.version.toU64 / 2 ^ 32 % 2 ^ 16 % 256)
    (m1.version.toU64 / 2 ^ 32 % 2 ^ 16 / 256 % 256)
    (m1.version.toU64 / 2 ^ 16 % 2 ^ 16 % 256)
    (m1.version.toU64 / 2 ^ 16 % 2 ^ 16 / 256 % 256)
    (m1.version.toU64 % 2 ^ 16 % 256)
    (m1.version.toU64 % 2 ^ 16 / 256 % 256)
    bs [] _ hparse
  show ModSettings.try_from (Serialiser.write_version m1.version.toU64
    ++ Serialiser.write_bool false ++ bs) = .ok m1
  have hshape : Serialiser.write_version m1.version.toU64
      ++ Serialiser.write_bool false ++ bs
      = (m1.version.toU64 / 2 ^ 48 % 2 ^ 16 % 256)
        :: (m1.version.toU64 / 2 ^ 48 % 2 ^ 16 / 256 % 256)
        :: (m1.version.toU64 / 2 ^ 32 % 2 ^ 16 % 256)
        :: (m1.version.toU64 / 2 ^ 32 % 2 ^ 16 / 256 % 256)
        :: (m1.version.toU64 / 2 ^ 16 % 2 ^ 16 % 256)
        :: (m1.version.toU64 / 2 ^ 16 % 2 ^ 16 / 256 % 256)
        :: (m1.version.toU64 % 2 ^ 16 % 256)
        :: (m1.version.toU64 % 2 ^ 16 / 256 % 256)
        :: 0 :: bs := rfl
  rw [hshape, hfr]
  rw [show modSettingsOutcome
      (m1.version.toU64 / 2 ^ 48 % 2 ^ 16 % 256)
      (m1.version.toU64 / 2 ^ 48 % 2 ^ 16 / 256 % 256)
      (m1.version.toU64 / 2 ^ 32 % 2 ^ 16 % 256)
      (m1.version.toU64 / 2 ^ 32 % 2 ^ 16 / 256 % 256)
      (m1.version.toU64 / 2 ^ 16 % 2 ^ 16 % 256)
      (m1.version.toU64 / 2 ^ 16 % 2 ^ 16 / 256 % 256)
      (m1.version.toU64 % 2 ^ 16 % 256)
      (m1.version.toU64 % 2 ^ 16 / 256 % 256)
      [(startupKey, m1.startup), (runtimeGlobalKey, m1.runtime_global),
       (runtimePerUserKey, m1.runtime_per_user)] []
    = PResult.ok (⟨⟨m1.version.toU64 / 2 ^ 48 % 2 ^ 16 % 256
          + 256 * (m1.version.toU64 / 2 ^ 48 % 2 ^ 16 / 256 % 256),
        m1.version.toU64 / 2 ^ 32 % 2 ^ 16 % 256
          + 256 * (m1.version.toU64 / 2 ^ 32 % 2 ^ 16 / 256 % 256),
        m1.version.toU64 / 2 ^ 16 % 2 ^ 16 % 256
          + 256 * (m1.version.toU64 / 2 ^ 16 % 2 ^ 16 / 256 % 256),
        m1.version.toU64 % 2 ^ 16 % 256
          + 256 * (m1.version.toU64 % 2 ^ 16 / 256 % 256)⟩,
      m1.startup, m1.runtime_global, m1.runtime_per_user⟩ : ModSettings)
    from rfl]
  have e1 : m1.version.toU64 / 2 ^ 48 % 2 ^ 16 % 256
      + 256 * (m1.version.toU64 / 2 ^ 48 % 2 ^ 16 / 256 % 256) = m1.version.main := by
    simp only [Version.toU64]
    omega
  have e2 : m1.version.toU64 / 2 ^ 32 % 2 ^ 16 % 256
      + 256 * (m1.version.toU64 / 2 ^ 32 % 2 ^ 16 / 256 % 256) = m1.version.major := by
    simp only [Version.toU64]
    omega
  have e3 : m1.version.toU64 / 2 ^ 16 % 2 ^ 16 % 256
      + 256 * (m1.version.toU64 / 2 ^ 16 % 2 ^ 16 / 256 % 256) = m1.version.minor := by
    simp only [Version.toU64]
    omega
  have e4 : m1.version.toU64 % 2 ^ 16 % 256
      + 256 * (m1.version.toU64 % 2 ^ 16 / 256 % 256) = m1.version.developer := by
    simp only [Version.toU64]
    omega
  rw [e1, e2, e3, e4]

/-!  ## The claims -/

/-- C2: the claim says decoding any buffer truncated in the middle of a
multi-byte field returns a slicing or EOF error and never panics.  The
code disagrees: `next_u16`, `next_u32`, `parse_double` and the string
body read all index with `self.byte_slice[0..n]`, which panics when fewer
than `n` bytes remain, before the `map_err(ByteSlicingError)` can run.
This theorem evaluates both decoders at such truncated inputs: a 1-byte
buffer (truncated mid-u16 of the version), a buffer truncated mid-double,
and one truncated mid-declared-string-body, all reaching the panic. -/
theorem C2_truncation_panics :
    ModSettings.try_from [1] = .panic
    ∧ SaveHeader.try_from [1] = .panic
    ∧ ModSettings.try_from [1, 0, 1, 0, 87, 0, 0, 0, 0, 2, 0, 1, 2, 3] = .panic
    ∧ ModSettings.try_from [1, 0, 1, 0, 87, 0, 0, 0, 0, 3, 0, 0, 5, 97] = .panic :=
  ⟨rfl, rfl, rfl, rfl⟩

/-- C3 counterexample: the claim says any byte other than 1 parses as
false; the code (`Ok(b != 0)`) parses the byte 2 as true. -/
theorem C3_counterexample :
    (2 : Nat) ≠ 1 ∧ Deserialiser.parse_bool [2] = .ok (true, []) :=
  ⟨by decide, rfl⟩

/-- C3 as amended: `parse_bool` consumes one byte and returns true
exactly when the byte is nonzero (0 parses as false, 1..=255 all parse
as true). -/
theorem C3_parse_bool_nonzero (b : Nat) (rest : List Nat) :
    Deserialiser.parse_bool (b :: rest) = .ok (b != 0, rest)
      ∧ ((b != 0) = true ↔ b ≠ 0) :=
  ⟨rfl, by simp⟩

/-- C6: the PropertyTree discriminator byte selects a variant exactly for
0..=5 with the documented mapping, every byte from 6 up fails with
`OutOfRange`, and `parse_property_tree` propagates that error (the
discriminator and the internal flag byte having been read). -/
theorem C6_discriminator_byte :
    (PropertyTreeType.try_from 0 = .ok .none
      ∧ PropertyTreeType.try_from 1 = .ok .bool
      ∧ PropertyTreeType.try_from 2 = .ok .number
      ∧ PropertyTreeType.try_from 3 = .ok .string
      ∧ PropertyTreeType.try_from 4 = .ok .list
      ∧ PropertyTreeType.try_from 5 = .ok .dictionary)
    ∧ (∀ v, 6 ≤ v → PropertyTreeType.try_from v = .error .OutOfRange)
    ∧ (∀ d flag rest, 6 ≤ d →
        Deserialiser.parse_property_tree (d :: flag :: rest) = .err .OutOfRange) := by
  refine ⟨⟨rfl, rfl, rfl, rfl, rfl, rfl⟩, ?_, ?_⟩
  · intro v hv
    obtain ⟨k, rfl⟩ := Nat.exists_eq_add_of_le hv
    rw [Nat.add_comm 6 k]
    exact rfl
  · intro d flag rest hd
    obtain ⟨k, rfl⟩ := Nat.exists_eq_add_of_le hd
    rw [Nat.add_comm 6 k]
    exact rfl

/-- C6 witness: the discriminator byte 9 is rejected with `OutOfRange`,
both by the type conversion and by the tree decoder. -/
theorem C6_discriminator_byte_witness :
    PropertyTreeType.try_from 9 = .error .OutOfRange
    ∧ Deserialiser.parse_property_tree [9, 0] = .err .OutOfRange :=
  ⟨C6_discriminator_byte.2.1 9 (by decide),
   C6_discriminator_byte.2.2 9 0 [] (by decide)⟩

/-- C9: encoding never fails: `PropertyTreeType::try_into` succeeds on
all six variants, so the error result of the ModSettings encoder is
vestigial and `try_into` returns `Ok` for every value. -/
theorem C9_encode_total :
    (∀ ty, ∃ n, PropertyTreeType.to_u8 ty = .ok n)
    ∧ ∀ ms : ModSettings, ∃ bs, ModSettings.try_into ms = .ok bs := by
  refine ⟨fun ty => ?_, fun ms => ?_⟩
  · cases ty <;> exact ⟨_, rfl⟩
  · obtain ⟨bs, h⟩ := write_property_tree_total (.dictionary
      [(startupKey, ms.startup), (runtimeGlobalKey, ms.runtime_global),
       (runtimePerUserKey, ms.runtime_per_user)])
    exact ⟨_, try_into_eq ms bs h⟩

/-- The property-tree string encoding as claim C4 states it (and as its
examples show): a 0x00 flag, then for lengths under 255 the length as a
single byte, otherwise the sentinel byte 255 and the 32-bit little-endian
length; then the bytes.  Defined only to compare with the source's
`write_string`. -/
def write_string_claimed (value : List Nat) : List Nat :=
  if value.length < 255 then
    [0] ++ [value.length] ++ value
  else
    [0] ++ [255] ++ Serialiser.write_u32 value.length ++ value

/-- C4 counterexample: the empty string has length under 255 bytes, yet
the codec does not encode its length as a single byte: it writes the
single empty-flag byte 0x01, where the claim's format would give
[0x00, 0x00]. -/
theorem C4_counterexample :
    Serialiser.write_string [] = [1]
    ∧ write_string_claimed [] = [0, 0]
    ∧ Serialiser.write_string [] ≠ write_string_claimed [] :=
  ⟨rfl, rfl, by decide⟩

/-- C4 as amended: the empty string encodes as the single empty-flag
byte 0x01 and round-trips; every nonempty string under 255 bytes encodes
as [0x00, length, bytes] and round-trips; every string of 255 bytes or
more (and by the codec's u32 cast assumption below 2^32) encodes as
[0x00, 0xFF, 32-bit little-endian length, bytes] and round-trips. -/
theorem C4_string_codec (s rest : List Nat) (hbytes : ∀ x ∈ s, x < 256)
    (hutf8 : validUtf8 s = true) (hlen : s.length < 2 ^ 32) :
    (s = [] → Serialiser.write_string s = [1]
      ∧ Deserialiser.parse_string (Serialiser.write_string s ++ rest)
          = .ok (s, rest))
    ∧ (s ≠ [] → s.length < 255 →
        Serialiser.write_string s = 0 :: s.length :: s
        ∧ Deserialiser.parse_string (Serialiser.write_string s ++ rest)
            = .ok (s, rest))
    ∧ (255 ≤ s.length →
        Serialiser.write_string s
          = 0 :: 255 :: (s.length % 256) :: (s.length / 256 % 256)
            :: (s.length / 256 ^ 2 % 256) :: (s.length / 256 ^ 3 % 256) :: s
        ∧ Deserialiser.parse_string (Serialiser.write_string s ++ rest)
            = .ok (s, rest)) := by
  have hwf : wfStr s := ⟨hbytes, hutf8, hlen⟩
  refine ⟨?_, ?_, ?_⟩
  · intro hnil
    subst hnil
    exact ⟨rfl, rfl⟩
  · intro hnil hsmall
    refine ⟨?_, parse_string_write s rest hwf⟩
    simp only [Serialiser.write_string, if_neg hnil, if_pos hsmall,
      Serialiser.write_bool, Serialiser.write_u8]
    have : s.length % 2 ^ 8 = s.length := Nat.mod_eq_of_lt (by omega)
    rw [this]
    rfl
  · intro hbig
    refine ⟨?_, parse_string_write s rest hwf⟩
    have hnil : s ≠ [] := by
      intro hs
      rw [hs] at hbig
      simp at hbig
    have hnsmall : ¬s.length < 255 := by omega
    simp only [Serialiser.write_string, if_neg hnil, if_neg hnsmall,
      Serialiser.write_bool, Serialiser.write_u8, Serialiser.write_u32]
    have : s.length % 2 ^ 32 = s.length := Nat.mod_eq_of_lt hlen
    rw [this]
    rfl

set_option maxRecDepth 4000 in
/-- C4 witness: the claim's own examples.  A 254-byte string encodes as
[0x00, 0xFE, bytes] and round-trips; a 300-byte string encodes as
[0x00, 0xFF, 0x2C, 0x01, 0x00, 0x00, bytes] and round-trips. -/
theorem C4_string_codec_witness :
    Serialiser.write_string (List.replicate 254 97)
      = 0 :: 254 :: List.replicate 254 97
    ∧ Deserialiser.parse_string (Serialiser.write_string (List.replicate 254 97) ++ [])
        = .ok (List.replicate 254 97, [])
    ∧ Serialiser.write_string (List.replicate 300 97)
        = 0 :: 255 :: 44 :: 1 :: 0 :: 0 :: List.replicate 300 97
    ∧ Deserialiser.parse_string (Serialiser.write_string (List.replicate 300 97) ++ [])
        = .ok (List.replicate 300 97, []) := by
  have h1 := C4_string_codec (List.replicate 254 97) [] (by decide) (by decide)
    (by decide)
  have h2 := C4_string_codec (List.replicate 300 97) [] (by decide) (by decide)
    (by decide)
  obtain ⟨he1, hr1⟩ := h1.2.1 (by decide) (by decide)
  obtain ⟨he2, hr2⟩ := h2.2.2 (by decide)
  refine ⟨?_, hr1, ?_, hr2⟩
  · simpa using he1
  · simpa using he2


/-- C7: decoding a ModSettings buffer whose top-level tree is a
Dictionary fails with a `Syntax` error naming the first missing section
among startup, runtime-global and runtime-per-user; when all three are
present, any extra entries in the dictionary are ignored and the decode
does not fail on their account. -/
theorem C7_missing_section (b0 b1 b2 b3 b4 b5 b6 b7 : Nat) (s r : List Nat)
    (dict : List (List Nat × PropertyTree))
    (h : Deserialiser.parse_property_tree s = .ok (.dictionary dict, r)) :
    (hashMapRemove dict startupKey = Option.none →
      ModSettings.try_from (b0 :: b1 :: b2 :: b3 :: b4 :: b5 :: b6 :: b7 :: 0 :: s)
        = .err (.Syntax "Settings section 'startup' missing"))
    ∧ (∀ st, hashMapRemove dict startupKey = Option.some st →
       hashMapRemove dict runtimeGlobalKey = Option.none →
       ModSettings.try_from (b0 :: b1 :: b2 :: b3 :: b4 :: b5 :: b6 :: b7 :: 0 :: s)
         = .err (.Syntax "Settings section 'runtime-global' missing"))
    ∧ (∀ st rg, hashMapRemove dict startupKey = Option.some st →
       hashMapRemove dict runtimeGlobalKey = Option.some rg →
       hashMapRemove dict runtimePerUserKey = Option.none →
       ModSettings.try_from (b0 :: b1 :: b2 :: b3 :: b4 :: b5 :: b6 :: b7 :: 0 :: s)
         = .err (.Syntax "Settings section 'runtime-per-user' missing"))
    ∧ (∀ st rg ru, hashMapRemove dict startupKey = Option.some st →
       hashMapRemove dict runtimeGlobalKey = Option.some rg →
       hashMapRemove dict runtimePerUserKey = Option.some ru →
       r = [] →
       ModSettings.try_from (b0 :: b1 :: b2 :: b3 :: b4 :: b5 :: b6 :: b7 :: 0 :: s)
         = .ok ⟨⟨b0 + 256 * b1, b2 + 256 * b3, b4 + 256 * b5, b6 + 256 * b7⟩,
                st, rg, ru⟩) := by
  rw [try_from_frame b0 b1 b2 b3 b4 b5 b6 b7 s r dict h]
  refine ⟨?_, ?_, ?_, ?_⟩
  · intro hsk
    simp [modSettingsOutcome, ModSettings.extract_sections, hsk]
  · intro st hsk hrg
    simp [modSettingsOutcome, ModSettings.extract_sections, hsk, hrg]
  · intro st rg hsk hrg hru
    simp [modSettingsOutcome, ModSettings.extract_sections, hsk, hrg, hru]
  · intro st rg ru hsk hrg hru hr
    subst hr
    simp [modSettingsOutcome, ModSettings.extract_sections, hsk, hrg, hru]


/-- C8: once a ModSettings prefix has parsed completely (version, false
sentinel and a top-level Dictionary with all three sections), decoding
succeeds exactly when the cursor is at end-of-buffer (the final peek
yields `Eof`); any remaining byte makes the whole decode fail with
`TrailingBytes`. -/
theorem C8_exact_eof (b0 b1 b2 b3 b4 b5 b6 b7 : Nat) (s r : List Nat)
    (dict : List (List Nat × PropertyTree)) (st rg ru : PropertyTree)
    (h : Deserialiser.parse_property_tree s = .ok (.dictionary dict, r))
    (hsk : hashMapRemove dict startupKey = Option.some st)
    (hrg : hashMapRemove dict runtimeGlobalKey = Option.some rg)
    (hru : hashMapRemove dict runtimePerUserKey = Option.some ru) :
    (r = [] →
      ModSettings.try_from (b0 :: b1 :: b2 :: b3 :: b4 :: b5 :: b6 :: b7 :: 0 :: s)
        = .ok ⟨⟨b0 + 256 * b1, b2 + 256 * b3, b4 + 256 * b5, b6 + 256 * b7⟩,
               st, rg, ru⟩)
    ∧ (r ≠ [] →
      ModSettings.try_from (b0 :: b1 :: b2 :: b3 :: b4 :: b5 :: b6 :: b7 :: 0 :: s)
        = .err .TrailingBytes) := by
  rw [try_from_frame b0 b1 b2 b3 b4 b5 b6 b7 s r dict h]
  refine ⟨?_, ?_⟩
  · intro hr
    subst hr
    simp [modSettingsOutcome, ModSettings.extract_sections, hsk, hrg, hru]
  · intro hr
    match r, hr with
    | x :: xs, _ =>
      simp [modSettingsOutcome, ModSettings.extract_sections, hsk, hrg, hru]


/-- In the `HashMap` model, the value kept for a duplicated key is the
last pair with that key (later inserts overwrite earlier ones). -/
theorem hashMapRemove_last (pre mid post : List (List Nat × PropertyTree))
    (k : List Nat) (v1 v2 : PropertyTree) (hpost : k ∉ post.map Prod.fst) :
    hashMapRemove (pre ++ (k, v1) :: mid ++ (k, v2) :: post) k = Option.some v2 := by
  unfold hashMapRemove
  have hnone : post.reverse.find? (fun p => decide (p.1 = k)) = Option.none := by
    rw [List.find?_eq_none]
    intro p hp
    simp only [decide_eq_true_eq]
    intro hk
    exact hpost (List.mem_map.mpr ⟨p, List.mem_reverse.mp hp, hk⟩)
  rw [show (pre ++ (k, v1) :: mid ++ (k, v2) :: post).reverse
    = post.reverse ++ (k, v2) :: (mid.reverse ++ (k, v1) :: pre.reverse) by
      simp]
  rw [List.find?_append, hnone]
  simp


/-- C10: a top-level dictionary with duplicate keys does not make the
decode fail: the pairs are collected into a `HashMap`, so among pairs
sharing a key only the last-parsed occurrence is kept, and the earlier
occurrence `v1` is silently lost. -/
theorem C10_duplicate_keys (b0 b1 b2 b3 b4 b5 b6 b7 : Nat) (s : List Nat)
    (pre mid post : List (List Nat × PropertyTree)) (v1 v2 rg ru : PropertyTree)
    (h : Deserialiser.parse_property_tree s
      = .ok (.dictionary (pre ++ (startupKey, v1) :: mid ++ (startupKey, v2) :: post), []))
    (hpost : startupKey ∉ post.map Prod.fst)
    (hrg : hashMapRemove (pre ++ (startupKey, v1) :: mid ++ (startupKey, v2) :: post)
      runtimeGlobalKey = Option.some rg)
    (hru : hashMapRemove (pre ++ (startupKey, v1) :: mid ++ (startupKey, v2) :: post)
      runtimePerUserKey = Option.some ru) :
    ∃ ms, ModSettings.try_from
        (b0 :: b1 :: b2 :: b3 :: b4 :: b5 :: b6 :: b7 :: 0 :: s) = .ok ms
      ∧ ms.startup = v2 ∧ ms.runtime_global = rg ∧ ms.runtime_per_user = ru := by
  have hsk := hashMapRemove_last pre mid post startupKey v1 v2 hpost
  rw [try_from_frame b0 b1 b2 b3 b4 b5 b6 b7 s []
    (pre ++ (startupKey, v1) :: mid ++ (startupKey, v2) :: post) h]
  refine ⟨⟨⟨b0 + 256 * b1, b2 + 256 * b3, b4 + 256 * b5, b6 + 256 * b7⟩,
    v2, rg, ru⟩, ?_, rfl, rfl, rfl⟩
  simp only [modSettingsOutcome, ModSettings.extract_sections]
  rw [hsk, hrg, hru]


/-- Projecting the decoded value out of a successful full run. -/
theorem PResult.map_fst_ok {α β : Type} {p : PResult (α × β)} {a : α}
    (h : PResult.map Prod.fst p = .ok a) : ∃ snd, p = .ok (a, snd) := by
  match p, h with
  | .ok (x, y), h =>
    obtain rfl : x = a := by simpa [PResult.map] using h
    exact ⟨y, rfl⟩
  | .err e, h => exact absurd h (by simp [PResult.map])
  | .panic, h => exact absurd h (by simp [PResult.map])

theorem saveheader_build_width (input : List Nat) (hd : SaveHeader)
    (h : SaveHeader.try_from input = .ok hd) :
    (hd.factorio_version.main = 1 → ∃ n, hd.loaded_from_build = .Build16 n)
    ∧ (2 ≤ hd.factorio_version.main → ∃ n, hd.loaded_from_build = .Build32 n) := by
  obtain ⟨sfin, h1⟩ := PResult.map_fst_ok h
  obtain ⟨ver, s1, hver, h2⟩ := DeserM.bind_ok h1
  obtain ⟨u1, s2, hu1, h3⟩ := DeserM.bind_ok h2
  obtain ⟨cam, s3, hcam, h4⟩ := DeserM.bind_ok h3
  obtain ⟨nam, s4, hnam, h5⟩ := DeserM.bind_ok h4
  obtain ⟨bm, s5, hbm, h6⟩ := DeserM.bind_ok h5
  obtain ⟨dif, s6, hdif, h7⟩ := DeserM.bind_ok h6
  obtain ⟨fin, s7, hfin, h8⟩ := DeserM.bind_ok h7
  obtain ⟨pw, s8, hpw, h9⟩ := DeserM.bind_ok h8
  obtain ⟨nl, s9, hnl, h10⟩ := DeserM.bind_ok h9
  obtain ⟨cc, s10, hcc, h11⟩ := DeserM.bind_ok h10
  obtain ⟨fbc, s11, hfbc, h12⟩ := DeserM.bind_ok h11
  obtain ⟨sr, s12, hsr, h13⟩ := DeserM.bind_ok h12
  obtain ⟨ando, s13, hando, h14⟩ := DeserM.bind_ok h13
  obtain ⟨lf, s14, hlf, h15⟩ := DeserM.bind_ok h14
  obtain ⟨lfb, s15, hlfb, h16⟩ := DeserM.bind_ok h15
  obtain ⟨ac, s16, hac, h17⟩ := DeserM.bind_ok h16
  obtain ⟨pad, s17, hpad, h18⟩ := DeserM.bind_ok h17
  obtain ⟨nm, s18, hnm, h19⟩ := DeserM.bind_ok h18
  obtain ⟨mods, s19, hmods, h20⟩ := DeserM.bind_ok h19
  obtain ⟨hrec, _⟩ := DeserM.pure_ok h20
  subst hrec
  by_cases hmain : 2 ≤ ver.main
  · rw [if_pos hmain] at hlfb
    obtain ⟨v, s15b, hv, hpure⟩ := DeserM.bind_ok hlfb
    obtain ⟨rfl, rfl⟩ := DeserM.pure_ok hpure
    constructor
    · intro h1main
      have h1m : ver.main = 1 := h1main
      omega
    · intro _
      exact ⟨v, rfl⟩
  · rw [if_neg hmain] at hlfb
    obtain ⟨v, s15b, hv, hpure⟩ := DeserM.bind_ok hlfb
    obtain ⟨rfl, rfl⟩ := DeserM.pure_ok hpure
    constructor
    · intro _
      exact ⟨v, rfl⟩
    · intro h2main
      have h2m : 2 ≤ ver.main := h2main
      omega

/-- C5: the SaveHeader build-number field is version-dependent.  For
every successfully decoded header, `loaded_from_build` is 16-bit shaped
when `factorio_version.main = 1` and 32-bit shaped when `main >= 2`.  On
explicit buffer families: with `main = 1` the two bytes x,y after
`loaded_from` form `Build16 (x + 256*y)` and the mod count is read
directly after the `allowed_commands` byte `a` (no padding consumed);
with `main = 2` the four bytes x,y,z,w form `Build32` and exactly the
four bytes p1..p4 between `allowed_commands` and the mod count are
consumed and discarded (the result does not depend on them). -/
theorem C5_build_number_branch :
    (∀ input hd, SaveHeader.try_from input = .ok hd →
      (hd.factorio_version.main = 1 → ∃ n, hd.loaded_from_build = .Build16 n)
      ∧ (2 ≤ hd.factorio_version.main → ∃ n, hd.loaded_from_build = .Build32 n))
    ∧ (∀ x y a : Nat,
        SaveHeader.try_from
          [1, 0, 1, 0, 87, 0, 0, 0, 0, 0, 0, 0, 0, 0, 0, 0, 0, 0, 0, 0,
           1, 1, 87, x, y, a, 0]
        = .ok ⟨⟨1, 1, 87, 0⟩, [], [], [], 0, false, false, [], false, false,
               false, false, ⟨1, 1, 87⟩, .Build16 (x + 256 * y), a != 0, []⟩)
    ∧ (∀ x y z w a p1 p2 p3 p4 : Nat,
        SaveHeader.try_from
          [2, 0, 1, 0, 87, 0, 0, 0, 0, 0, 0, 0, 0, 0, 0, 0, 0, 0, 0, 0,
           1, 1, 87, x, y, z, w, a, p1, p2, p3, p4, 0]
        = .ok ⟨⟨2, 1, 87, 0⟩, [], [], [], 0, false, false, [], false, false,
               false, false, ⟨1, 1, 87⟩,
               .Build32 (x + 256 * y + 256 ^ 2 * z + 256 ^ 3 * w), a != 0, []⟩) :=
  ⟨saveheader_build_width, fun _ _ _ => rfl, fun _ _ _ _ _ _ _ _ _ => rfl⟩

/-- C5 witness: decoding a concrete main = 1 header yields a 16-bit
build number. -/
theorem C5_build_number_branch_witness :
    ∃ n, (⟨⟨1, 1, 87, 0⟩, [], [], [], 0, false, false, [], false, false,
           false, false, ⟨1, 1, 87⟩, .Build16 42, true, []⟩ : SaveHeader).loaded_from_build
      = BuildNumber.Build16 n :=
  (C5_build_number_branch.1
    [1, 0, 1, 0, 87, 0, 0, 0, 0, 0, 0, 0, 0, 0, 0, 0, 0, 0, 0, 0,
     1, 1, 87, 42, 0, 1, 0]
    ⟨⟨1, 1, 87, 0⟩, [], [], [], 0, false, false, [], false, false,
     false, false, ⟨1, 1, 87⟩, .Build16 42, true, []⟩ (by rfl)).1 (by rfl)

/-- C1: for every byte buffer produced by the ModSettings encoder (so in
particular a `Vec<u8>`, every member below 256), if it decodes to `m1`,
then re-encoding `m1` succeeds, decoding that encoding gives back a
ModSettings structurally equal to `m1`, and the encodings of the first
and second decodes are byte-for-byte identical. -/
theorem C1_roundtrip_stability (ms0 : ModSettings) (b : List Nat)
    (m1 : ModSettings) (_henc : ModSettings.try_into ms0 = .ok b)
    (hbytes : ∀ x ∈ b, x < 256) (hdec : ModSettings.try_from b = .ok m1) :
    ∃ e2 m2, ModSettings.try_into m1 = .ok e2
      ∧ ModSettings.try_from e2 = .ok m2
      ∧ m2 = m1
      ∧ ModSettings.try_into m2 = .ok e2 := by
  obtain ⟨e2, h1, h2⟩ := decode_then_encode hbytes hdec
  exact ⟨e2, m1, h1, h2, rfl, h1⟩

/-- C1 witness: a concrete encode–decode–encode–decode cycle.  The buffer
is the encoding of a ModSettings with three `None` sections. -/
theorem C1_roundtrip_stability_witness :
    ∃ e2 m2, ModSettings.try_into
        ⟨⟨1, 1, 87, 0⟩, .none, .none, .none⟩ = .ok e2
      ∧ ModSettings.try_from e2 = .ok m2
      ∧ m2 = ⟨⟨1, 1, 87, 0⟩, .none, .none, .none⟩
      ∧ ModSettings.try_into m2 = .ok e2 :=
  C1_roundtrip_stability ⟨⟨1, 1, 87, 0⟩, .none, .none, .none⟩
    [1, 0, 1, 0, 87, 0, 0, 0, 0, 5, 0, 3, 0, 0, 0,
     0, 7, 115, 116, 97, 114, 116, 117, 112, 0, 0,
     0, 14, 114, 117, 110, 116, 105, 109, 101, 45, 103, 108, 111, 98, 97, 108,
     0, 0,
     0, 16, 114, 117, 110, 116, 105, 109, 101, 45, 112, 101, 114, 45, 117,
     115, 101, 114, 0, 0]
    ⟨⟨1, 1, 87, 0⟩, .none, .none, .none⟩ (by rfl) (by decide) (by rfl)

/-- C7 witness: a buffer whose top-level dictionary only has the
`runtime-global` section fails naming `startup`; one with all three
sections plus an extra entry (key "zzz") decodes fine, the extra entry
ignored. -/
theorem C7_missing_section_witness :
    ModSettings.try_from (1 :: 0 :: 1 :: 0 :: 87 :: 0 :: 0 :: 0 :: 0 ::
        ([5, 0, 1, 0, 0, 0, 0, 14] ++ runtimeGlobalKey ++ [0, 0]))
      = .err (.Syntax "Settings section 'startup' missing")
    ∧ ModSettings.try_from (1 :: 0 :: 1 :: 0 :: 87 :: 0 :: 0 :: 0 :: 0 ::
        ([5, 0, 4, 0, 0, 0] ++ [0, 7] ++ startupKey ++ [0, 0]
          ++ [0, 14] ++ runtimeGlobalKey ++ [0, 0]
          ++ [0, 16] ++ runtimePerUserKey ++ [0, 0]
          ++ [0, 3, 122, 122, 122] ++ [0, 0]))
      = .ok ⟨⟨1, 1, 87, 0⟩, .none, .none, .none⟩ :=
  ⟨(C7_missing_section 1 0 1 0 87 0 0 0
      ([5, 0, 1, 0, 0, 0, 0, 14] ++ runtimeGlobalKey ++ [0, 0]) []
      [(runtimeGlobalKey, .none)] (by rfl)).1 (by rfl),
   (C7_missing_section 1 0 1 0 87 0 0 0
      ([5, 0, 4, 0, 0, 0] ++ [0, 7] ++ startupKey ++ [0, 0]
        ++ [0, 14] ++ runtimeGlobalKey ++ [0, 0]
        ++ [0, 16] ++ runtimePerUserKey ++ [0, 0]
        ++ [0, 3, 122, 122, 122] ++ [0, 0]) []
      [(startupKey, .none), (runtimeGlobalKey, .none), (runtimePerUserKey, .none),
       ([122, 122, 122], .none)] (by rfl)).2.2.2 .none .none .none
      (by rfl) (by rfl) (by rfl) (by rfl)⟩

/-- C8 witness: the well-formed buffer decodes when it ends exactly at
the tree's end, and the same buffer with one extra trailing byte fails
with `TrailingBytes`. -/
theorem C8_exact_eof_witness :
    ModSettings.try_from (1 :: 0 :: 1 :: 0 :: 87 :: 0 :: 0 :: 0 :: 0 ::
        ([5, 0, 3, 0, 0, 0] ++ [0, 7] ++ startupKey ++ [0, 0]
          ++ [0, 14] ++ runtimeGlobalKey ++ [0, 0]
          ++ [0, 16] ++ runtimePerUserKey ++ [0, 0]))
      = .ok ⟨⟨1, 1, 87, 0⟩, .none, .none, .none⟩
    ∧ ModSettings.try_from (1 :: 0 :: 1 :: 0 :: 87 :: 0 :: 0 :: 0 :: 0 ::
        (([5, 0, 3, 0, 0, 0] ++ [0, 7] ++ startupKey ++ [0, 0]
          ++ [0, 14] ++ runtimeGlobalKey ++ [0, 0]
          ++ [0, 16] ++ runtimePerUserKey ++ [0, 0]) ++ [7]))
      = .err .TrailingBytes :=
  ⟨(C8_exact_eof 1 0 1 0 87 0 0 0
      ([5, 0, 3, 0, 0, 0] ++ [0, 7] ++ startupKey ++ [0, 0]
        ++ [0, 14] ++ runtimeGlobalKey ++ [0, 0]
        ++ [0, 16] ++ runtimePerUserKey ++ [0, 0]) []
      [(startupKey, .none), (runtimeGlobalKey, .none), (runtimePerUserKey, .none)]
      .none .none .none (by rfl) (by rfl) (by rfl) (by rfl)).1 (by rfl),
   (C8_exact_eof 1 0 1 0 87 0 0 0
      (([5, 0, 3, 0, 0, 0] ++ [0, 7] ++ startupKey ++ [0, 0]
        ++ [0, 14] ++ runtimeGlobalKey ++ [0, 0]
        ++ [0, 16] ++ runtimePerUserKey ++ [0, 0]) ++ [7]) [7]
      [(startupKey, .none), (runtimeGlobalKey, .none), (runtimePerUserKey, .none)]
      .none .none .none (by rfl) (by rfl) (by rfl) (by rfl)).2 (by decide)⟩

/-- C10 witness: a top-level dictionary listing `startup` twice (first
`Bool false`, later `Bool true`) decodes without error and keeps the
last occurrence. -/
theorem C10_duplicate_keys_witness :
    ∃ ms, ModSettings.try_from (1 :: 0 :: 1 :: 0 :: 87 :: 0 :: 0 :: 0 :: 0 ::
        ([5, 0, 4, 0, 0, 0] ++ [0, 7] ++ startupKey ++ [1, 0, 0]
          ++ [0, 14] ++ runtimeGlobalKey ++ [0, 0]
          ++ [0, 7] ++ startupKey ++ [1, 0, 1]
          ++ [0, 16] ++ runtimePerUserKey ++ [0, 0]))
      = .ok ms
      ∧ ms.startup = .bool true ∧ ms.runtime_global = .none
      ∧ ms.runtime_per_user = .none :=
  C10_duplicate_keys 1 0 1 0 87 0 0 0
    ([5, 0, 4, 0, 0, 0] ++ [0, 7] ++ startupKey ++ [1, 0, 0]
      ++ [0, 14] ++ runtimeGlobalKey ++ [0, 0]
      ++ [0, 7] ++ startupKey ++ [1, 0, 1]
      ++ [0, 16] ++ runtimePerUserKey ++ [0, 0])
    [] [(runtimeGlobalKey, .none)] [(runtimePerUserKey, .none)]
    (.bool false) (.bool true) .none .none
    (by rfl) (by decide) (by rfl) (by rfl)

end FactorioFileParser
